import Mathlib

/-!
Verification development for the haassohn fireplace adapter (main.js).

The adapter polls a device over HTTP, authenticates command POSTs with a
nonce-derived session secret, and mirrors the device's nested JSON status
document onto a flat namespace of host-managed state points.

This file gives a shallow embedding of the adapter's state and operations:
JavaScript/JSON values are modelled by the inductive type `JVal` (JSON
numbers are modelled as integers; the status documents and claims under
study involve no fractional values), the host state store by association
lists, and every side effect (host writes, object writes, HTTP calls,
warnings) by an explicit event trace carried in the adapter state.
-/

/-- Model of a JavaScript/JSON value as received from the device or stored in
the host state store. -/
inductive JVal where
  | null
  | bool (b : Bool)
  | num (n : Int)
  | str (s : String)
  | arr (elems : List JVal)
  | obj (fields : List (String × JVal))
deriving Repr

mutual

/-- Boolean structural equality on `JVal`, used to build decidable equality
(the automatic derivation does not support this nested inductive). -/
def jvalBEq : JVal → JVal → Bool
  | JVal.null, JVal.null => true
  | JVal.bool a, JVal.bool b => a == b
  | JVal.num a, JVal.num b => a == b
  | JVal.str a, JVal.str b => a == b
  | JVal.arr xs, JVal.arr ys => jvalElemsBEq xs ys
  | JVal.obj fs, JVal.obj gs => jvalFieldsBEq fs gs
  | _, _ => false

def jvalElemsBEq : List JVal → List JVal → Bool
  | [], [] => true
  | x :: xs, y :: ys => jvalBEq x y && jvalElemsBEq xs ys
  | _, _ => false

def jvalFieldsBEq : List (String × JVal) → List (String × JVal) → Bool
  | [], [] => true
  | (k, v) :: xs, (l, w) :: ys => k == l && jvalBEq v w && jvalFieldsBEq xs ys
  | _, _ => false

end

theorem jvalBEq_iff_aux (n : Nat) :
    (∀ a b : JVal, sizeOf a ≤ n → (jvalBEq a b = true ↔ a = b)) ∧
    (∀ xs ys : List JVal, sizeOf xs ≤ n → (jvalElemsBEq xs ys = true ↔ xs = ys)) ∧
    (∀ fs gs : List (String × JVal), sizeOf fs ≤ n → (jvalFieldsBEq fs gs = true ↔ fs = gs)) := by
  induction n with
  | zero =>
    refine ⟨?_, ?_, ?_⟩ <;> intro a b h <;> exfalso <;> cases a <;> simp_all
  | succ n ih =>
    refine ⟨?_, ?_, ?_⟩
    · intro a b h
      cases a with
      | null => cases b <;> simp [jvalBEq]
      | bool x => cases b <;> simp [jvalBEq]
      | num x => cases b <;> simp [jvalBEq]
      | str x => cases b <;> simp [jvalBEq]
      | arr xs =>
        cases b <;> simp [jvalBEq]
        case arr ys =>
          have hx : sizeOf xs ≤ n := by simp at h; omega
          simpa using ih.2.1 xs ys hx
      | obj fs =>
        cases b <;> simp [jvalBEq]
        case obj gs =>
          have hx : sizeOf fs ≤ n := by simp at h; omega
          simpa using ih.2.2 fs gs hx
    · intro xs ys h
      cases xs with
      | nil => cases ys <;> simp [jvalElemsBEq]
      | cons x xs' =>
        cases ys with
        | nil => simp [jvalElemsBEq]
        | cons y ys' =>
          have hx : sizeOf x ≤ n := by simp at h; omega
          have hxs : sizeOf xs' ≤ n := by simp at h; omega
          simp [jvalElemsBEq, ih.1 x y hx, ih.2.1 xs' ys' hxs]
    · intro fs gs h
      cases fs with
      | nil => cases gs <;> simp [jvalFieldsBEq]
      | cons p fs' =>
        obtain ⟨k, v⟩ := p
        cases gs with
        | nil => simp [jvalFieldsBEq]
        | cons q gs' =>
          obtain ⟨l, w⟩ := q
          have hv : sizeOf v ≤ n := by simp at h; omega
          have hfs : sizeOf fs' ≤ n := by simp at h; omega
          simp [jvalFieldsBEq, ih.1 v w hv, ih.2.2 fs' gs' hfs, and_assoc]

theorem jvalBEq_iff (a b : JVal) : jvalBEq a b = true ↔ a = b :=
  (jvalBEq_iff_aux (sizeOf a)).1 a b le_rfl

instance : DecidableEq JVal := fun a b =>
  decidable_of_iff (jvalBEq a b = true) (jvalBEq_iff a b)

/-- JavaScript truthiness of a value (used by conditions such as
`if (result.meta && result.meta.nonce)` and `if (!nonce)` in main.js):
`undefined`, `null`, `false`, `0` and the empty string are falsy; objects and
arrays are always truthy. -/
def jvalTruthy : JVal → Bool
  | JVal.null => false
  | JVal.bool b => b
  | JVal.num n => n != 0
  | JVal.str s => s ≠ ""
  | JVal.arr _ => true
  | JVal.obj _ => true

/-- Truthiness of a possibly-undefined value (`none` models JS `undefined`). -/
def jvalTruthyOpt : Option JVal → Bool
  | none => false
  | some v => jvalTruthy v

mutual

/-- JavaScript string coercion `String(v)` (used by template literals such as
the supported-versions key and by the `+` in `md5(NONCE + HPIN)`): arrays join
their elements with `,` where a `null` element prints as the empty string,
and plain objects print as `[object Object]`. -/
def jsToString : JVal → String
  | JVal.null => "null"
  | JVal.bool true => "true"
  | JVal.bool false => "false"
  | JVal.num n => toString n
  | JVal.str s => s
  | JVal.arr xs => jsElemsToString xs
  | JVal.obj _ => "[object Object]"

def jsElemsToString : List JVal → String
  | [] => ""
  | [JVal.null] => ""
  | [x] => jsToString x
  | JVal.null :: y :: rest => "," ++ jsElemsToString (y :: rest)
  | x :: y :: rest => jsToString x ++ "," ++ jsElemsToString (y :: rest)

end

/-- Hexadecimal digit for JSON string escapes. -/
def hexDigit (n : Nat) : Char :=
  if n < 10 then Char.ofNat (48 + n) else Char.ofNat (87 + n)

/-- JSON escaping of a single character as performed by `JSON.stringify`. -/
def jsonEscapeChar (c : Char) : String :=
  if c = '"' then "\\\""
  else if c = '\\' then "\\\\"
  else if c = '\n' then "\\n"
  else if c = '\t' then "\\t"
  else if c = '\r' then "\\r"
  else if c = Char.ofNat 8 then "\\b"
  else if c = Char.ofNat 12 then "\\f"
  else if c.toNat < 32 then
    "\\u00" ++ String.singleton (hexDigit (c.toNat / 16)) ++ String.singleton (hexDigit (c.toNat % 16))
  else String.singleton c

/-- JSON escaping of a string body. -/
def jsonEscape (s : String) : String :=
  s.data.foldl (fun acc c => acc ++ jsonEscapeChar c) ""

mutual

/-- Model of `JSON.stringify` on JSON values (the canonical serialized string
form used by `syncState` for non-scalar values and by the command POST body). -/
def jsonStringify : JVal → String
  | JVal.null => "null"
  | JVal.bool true => "true"
  | JVal.bool false => "false"
  | JVal.num n => toString n
  | JVal.str s => "\"" ++ jsonEscape s ++ "\""
  | JVal.arr xs => "[" ++ jsonStringifyElems xs ++ "]"
  | JVal.obj fs => "\x7b" ++ jsonStringifyFields fs ++ "\x7d"

def jsonStringifyElems : List JVal → String
  | [] => ""
  | [x] => jsonStringify x
  | x :: y :: rest => jsonStringify x ++ "," ++ jsonStringifyElems (y :: rest)

def jsonStringifyFields : List (String × JVal) → String
  | [] => ""
  | [(k, v)] => "\"" ++ jsonEscape k ++ "\":" ++ jsonStringify v
  | (k, v) :: q :: rest =>
      "\"" ++ jsonEscape k ++ "\":" ++ jsonStringify v ++ "," ++ jsonStringifyFields (q :: rest)

end

/-- Property access `v.k` on a JavaScript value: a lookup on plain objects,
`undefined` (modelled as `none`) on primitives. Access on `null` throws and is
handled separately at each use site. -/
def jvGet : JVal → String → Option JVal
  | JVal.obj fs, k => fs.lookup k
  | _, _ => none

/-- Association-list lookup (the host state store and host object store are
modelled as association lists keyed by state identifier). -/
def alGet {α : Type} : List (String × α) → String → Option α
  | [], _ => none
  | (k, v) :: rest, key => if k = key then some v else alGet rest key

/-- Association-list update-or-insert. -/
def alSet {α : Type} : List (String × α) → String → α → List (String × α)
  | [], key, v => [(key, v)]
  | (k, w) :: rest, key, v => if k = key then (key, v) :: rest else (k, w) :: alSet rest key v

theorem alGet_alSet_eq {α : Type} (l : List (String × α)) (k : String) (v : α) :
    alGet (alSet l k v) k = some v := by
  induction l with
  | nil => simp [alGet, alSet]
  | cons p rest ih =>
    obtain ⟨k', w⟩ := p
    by_cases h : k' = k <;> simp [alGet, alSet, h, ih]

theorem alGet_alSet_ne {α : Type} (l : List (String × α)) (k k' : String) (v : α)
    (h : k ≠ k') : alGet (alSet l k v) k' = alGet l k' := by
  induction l with
  | nil => simp [alGet, alSet, h]
  | cons p rest ih =>
    obtain ⟨k0, w⟩ := p
    by_cases h0 : k0 = k
    · subst h0
      simp [alSet, alGet, h]
    · simp only [alSet, alGet, h0, if_neg h0, ite_false]
      by_cases h1 : k0 = k' <;> simp [alGet, h1, ih]

theorem alGet_alSet_isSome {α : Type} (l : List (String × α)) (k k' : String) (v : α) :
    (alGet (alSet l k v) k').isSome ↔ (alGet l k').isSome ∨ k = k' := by
  by_cases h : k = k'
  · subst h; simp [alGet_alSet_eq]
  · simp [alGet_alSet_ne l k k' v h, h]

/-- Metadata of a host-managed object; the adapter only ever reads and writes
the `common.write` capability flag (for `device.eco_mode`), so only that field
is modelled. -/
structure HostObj where
  write : JVal
deriving Repr, DecidableEq

/-- The host collaborator (ioBroker): a store of object metadata and a store
of last-acknowledged state values, both keyed by state identifier.  `failing`
lists the identifiers whose host operations reject (host I/O failure); the
corresponding awaits in main.js then throw. -/
structure Host where
  objects : List (String × HostObj)
  states : List (String × JVal)
  failing : List String
deriving Repr, DecidableEq

/-- Adapter configuration (`adapterInstance.config` plus the namespace). -/
structure Config where
  fireplaceAddress : String
  pollingInterval : Int
  pin : String
  supportedHwSwVersions : List (String × Bool)
  adapterNamespace : String

/-- Environment: the configuration together with the md5 hash function, which
the model treats as an arbitrary function from strings to strings. -/
structure Env where
  md5h : String → String
  cfg : Config

/-- The HTTP headers built by `createHeader` (main.js lines 395-410). -/
structure Headers where
  hostH : String
  accept : String
  proxyConnection : String
  xBackendIp : String
  acceptLanguage : String
  acceptEncoding : String
  token : String
  contentType : String
  contentLength : Nat
  userAgent : String
  connection : String
  xHsPin : Option String
deriving Repr, DecidableEq

/-- Observable events of one process run: host writes, host object writes,
HTTP traffic, and the log lines that the claims mention. `visit` records the
debug line `Processing state: ...` emitted for every leaf of the status
document (main.js line 301). -/
inductive Ev where
  | visit (stateName : String) (value : JVal)
  | publish (id : String) (v : JVal) (ack : Bool)
  | setObject (id : String) (o : HostObj)
  | httpGet (url : String)
  | httpPost (url : String) (body : JVal) (headers : Headers)
  | warnMissing (stateName : String)
  | warnLog (msg : String)
  | errorLog (msg : String)
deriving Repr, DecidableEq

/-- The process-wide mutable state of the adapter (the module-level variables
of main.js lines 12-24) together with the host stores and the event trace. -/
structure AdapterSt where
  host : Host
  deviceStates : List (String × Option JVal)
  noOfConnectionErrors : Nat
  missingState : Bool
  timerArmed : Bool
  disableAdapter : Bool
  hw_version : Option JVal
  sw_version : Option JVal
  hpin : String
  hspin : Option String
  nonce : Option JVal
  nonceTimestamp : Int
deriving Repr, DecidableEq

/-- An adapter state paired with the trace of events emitted so far. -/
structure Trace where
  st : AdapterSt
  events : List Ev
deriving Repr, DecidableEq

/-- Input of one poll cycle: the current clock value and the device's HTTP
answer (`none` models a network error or timeout rejection; `some (s, body)`
a response with status `s` and JSON body `body`). -/
structure PollInput where
  now : Int
  response : Option (Nat × JVal)

/-- An inbound state-change notification (`state` argument of the
`stateChange` handler): its value and acknowledgement flag. -/
structure InState where
  val : JVal
  ack : Bool

/-- HPIN = MD5(PIN) (main.js lines 388-392). -/
def calculateHPIN (md5h : String → String) (PIN : String) : String :=
  md5h PIN

/-- HSPIN = MD5(NONCE + HPIN) (main.js lines 380-384); the JavaScript `+`
coerces the nonce to a string and appends HPIN after it. -/
def calculateHSPIN (md5h : String → String) (NONCE : JVal) (HPIN : String) : String :=
  md5h (jsToString NONCE ++ HPIN)

/-- Fixed expiry window of the nonce: one hour in milliseconds (main.js
line 23). -/
def nonceExpiryTime : Int := 60 * 60 * 1000

/-- The condition of `validateAndRefreshNonce` (main.js line 431):
`!nonce || currentTime - nonceTimestamp > nonceExpiryTime`. -/
def shouldRefreshNonce (nonce : Option JVal) (nonceTimestamp now : Int) : Bool :=
  !jvalTruthyOpt nonce || decide (now - nonceTimestamp > nonceExpiryTime)

/-- `Buffer.byteLength` as called by `createHeader`: the UTF-8 byte length of
a string; a plain object argument raises `ERR_INVALID_ARG_TYPE`. -/
def bufferByteLength : JVal → Except String Nat
  | JVal.str s => Except.ok s.utf8ByteSize
  | _ => Except.error "ERR_INVALID_ARG_TYPE"

/-- `createHeader(post_data)` (main.js lines 395-410): a record of fixed
fields plus the target host, the byte length of the body, and the current
session secret.  Computing the byte length throws if `post_data` is not a
string. -/
def createHeader (cfg : Config) (hspin : Option String) (post_data : JVal) : Except String Headers :=
  (bufferByteLength post_data).map fun len =>
    { hostH := cfg.fireplaceAddress
      accept := "*/*"
      proxyConnection := "keep-alive"
      xBackendIp := "https://app.haassohn.com"
      acceptLanguage := "de-DE;q=1.0, en-DE;q=0.9"
      acceptEncoding := "gzip, deflate"
      token := "32bytes"
      contentType := "application/json"
      contentLength := len
      userAgent := "ios"
      connection := "keep-alive"
      xHsPin := hspin }

/-- Flat state-point identifier of a leaf (main.js line 298). -/
def stateNameOf (path key : String) : String :=
  if path = "" then "device." ++ key else "device." ++ path ++ "." ++ key

/-- Extended path used when recursing into a nested mapping (main.js
line 292). -/
def joinPath (path key : String) : String :=
  if path = "" then key else path ++ "." ++ key

/-- Value coercion before comparison and storage (main.js lines 314-319):
`typeof v === "object"` values (arrays, plain objects and `null`) are
serialized with `JSON.stringify`; other scalars pass through unchanged. -/
def coerceForStore : JVal → JVal
  | JVal.arr xs => JVal.str (jsonStringify (JVal.arr xs))
  | JVal.obj fs => JVal.str (jsonStringify (JVal.obj fs))
  | JVal.null => JVal.str (jsonStringify JVal.null)
  | v => v

/-- `setState(id, v, true)`: update the host store and record the publish. -/
def doSetState (tr : Trace) (id : String) (v : JVal) : Trace :=
  { st := { tr.st with host := { tr.st.host with states := alSet tr.st.host.states id v } }
    events := tr.events ++ [Ev.publish id v true] }

/-- `setObject(id, o)`: update the host object store and record the write. -/
def doSetObject (tr : Trace) (id : String) (o : HostObj) : Trace :=
  { st := { tr.st with host := { tr.st.host with objects := alSet tr.st.host.objects id o } }
    events := tr.events ++ [Ev.setObject id o] }

/-- Effect of the catch blocks of `syncState` (main.js lines 365-368 and
371-375): log the error and disable the adapter permanently. -/
def markSyncError (tr : Trace) : Trace :=
  { st := { tr.st with disableAdapter := true }
    events := tr.events ++ [Ev.errorLog "Error processing state"] }

/-- Special handling for `device.meta.nonce` (main.js lines 322-330): on a
changed value, cache the new nonce, reset its timestamp, and recompute the
session secret. -/
def nonceIntercept (env : Env) (now : Int) (stateName : String) (newValue : JVal) (tr : Trace) : Trace :=
  if stateName = "device.meta.nonce" ∧ tr.st.nonce ≠ some newValue then
    { tr with st := { tr.st with
        nonce := some newValue
        nonceTimestamp := now
        hspin := some (calculateHSPIN env.md5h newValue tr.st.hpin) } }
  else tr

/-- Buffering of the hardware and software versions for the supported-
combination check (main.js lines 333-339). -/
def versionIntercept (stateName : String) (newValue : JVal) (tr : Trace) : Trace :=
  if stateName = "device.meta.hw_version" ∧ tr.st.hw_version ≠ some newValue then
    { tr with st := { tr.st with hw_version := some newValue } }
  else if stateName = "device.meta.sw_version" ∧ tr.st.sw_version ≠ some newValue then
    { tr with st := { tr.st with sw_version := some newValue } }
  else tr

/-- Special handling for `device.meta.eco_editable` (main.js lines 357-364):
if the `device.eco_mode` object exists, set its write capability to the raw
reported value.  The lookup of `device.eco_mode` can itself fail, which the
enclosing catch escalates to a permanent disable. -/
def ecoIntercept (stateName : String) (value : JVal) (tr : Trace) : Trace :=
  if stateName = "device.meta.eco_editable" then
    if "device.eco_mode" ∈ tr.st.host.failing then markSyncError tr
    else
      match alGet tr.st.host.objects "device.eco_mode" with
      | some o => doSetObject tr "device.eco_mode" { o with write := value }
      | none => tr
  else tr

/-- The present-object branch of leaf processing (main.js lines 310-350):
read the last-acknowledged value, clear the internal buffer entry, coerce the
value, run the nonce and version interceptions, and publish the coerced value
when the stored value is absent or strictly different. -/
def syncLeafFound (env : Env) (now : Int) (stateName : String) (value : JVal) (tr : Trace) : Trace :=
  let currentState := alGet tr.st.host.states stateName
  let tr : Trace :=
    { tr with st := { tr.st with deviceStates := alSet tr.st.deviceStates stateName none } }
  let newValue := coerceForStore value
  let tr := nonceIntercept env now stateName newValue tr
  let tr := versionIntercept stateName newValue tr
  match currentState with
  | some cur => if cur ≠ newValue then doSetState tr stateName newValue else tr
  | none => doSetState tr stateName newValue

/-- The missing-object branch (main.js lines 351-355): warn, set the sticky
`missingState` flag, and do not create the point. -/
def syncLeafMissing (stateName : String) (tr : Trace) : Trace :=
  { st := { tr.st with missingState := true }
    events := tr.events ++ [Ev.warnMissing stateName] }

/-- Processing of one leaf of the status document (main.js lines 296-368):
record the value in the internal buffer, look up the host object (a missing
object takes the `syncLeafMissing` branch; a host I/O failure disables the
adapter), process it via `syncLeafFound`, and finally run the eco-editable
interception. -/
def syncLeaf (env : Env) (now : Int) (path key : String) (value : JVal) (tr : Trace) : Trace :=
  let stateName := stateNameOf path key
  let tr : Trace :=
    { st := { tr.st with deviceStates := alSet tr.st.deviceStates stateName (some value) }
      events := tr.events ++ [Ev.visit stateName value] }
  if stateName ∈ tr.st.host.failing then markSyncError tr
  else
    let tr :=
      match alGet tr.st.host.objects stateName with
      | some _ => syncLeafFound env now stateName value tr
      | none => syncLeafMissing stateName tr
    ecoIntercept stateName value tr

/-- The recursion condition of `syncState` (main.js line 291):
`typeof v === "object" && !Array.isArray(v)`.  In JavaScript `typeof null`
is `"object"`, so `null` satisfies the condition as well. -/
def isRecurseNode : JVal → Bool
  | JVal.obj _ => true
  | JVal.null => true
  | _ => false

mutual

/-- The recursive state synchronizer (main.js lines 285-376) on one document
node.  It is invoked on the whole status document (an object) and recursively
on every child that satisfies `isRecurseNode`.  Recursing into `null` throws
a `TypeError` at `Object.keys(null)`, which the catch block of that
invocation turns into a permanent disable; numbers and booleans have no
enumerable keys, so the loop body never runs for them. -/
def syncState (env : Env) (now : Int) : JVal → String → Trace → Trace
  | JVal.obj fields, path, tr => syncFields env now fields path tr
  | JVal.null, _, tr => markSyncError tr
  | _, _, tr => tr

/-- The `for (const key of Object.keys(state))` loop of `syncState`. -/
def syncFields (env : Env) (now : Int) : List (String × JVal) → String → Trace → Trace
  | [], _, tr => tr
  | (key, v) :: rest, path, tr =>
      let tr1 :=
        if isRecurseNode v then syncState env now v (joinPath path key) tr
        else syncLeaf env now path key v tr
      syncFields env now rest path tr1

end

mutual

/-- Declarative flattening of a status document: the leaf points that
`syncState` processes, with their flat identifiers and raw values.  Nested
non-array mappings are recursed into; scalars and arrays become leaves whose
identifiers join `device` with the path segments using `.`; a `null` node
yields no leaves (the synchronizer aborts that subtree). -/
def flattenNode : JVal → String → List (String × JVal)
  | JVal.obj fields, path => flattenFields fields path
  | _, _ => []

def flattenFields : List (String × JVal) → String → List (String × JVal)
  | [], _ => []
  | (key, v) :: rest, path =>
      (if isRecurseNode v then flattenNode v (joinPath path key)
       else [(stateNameOf path key, v)]) ++ flattenFields rest path

end

/-- The supported hardware/software combination check (main.js lines
251-267): when both versions are known, an allow-list lookup keyed by
`"<hw>_<sw>"`; any falsy entry disables the adapter permanently. -/
def comboCheck (env : Env) (tr : Trace) : Trace :=
  match tr.st.hw_version, tr.st.sw_version with
  | some hw, some sw =>
      match alGet env.cfg.supportedHwSwVersions (jsToString hw ++ "_" ++ jsToString sw) with
      | some true => tr
      | _ =>
          { st := { tr.st with disableAdapter := true }
            events := tr.events ++ [Ev.errorLog "Hardware / Software combination is not supported"] }
  | _, _ => tr

/-- Common pattern of the missing-state and terminated indicators (main.js
lines 242-248 and 270-281): write the new value only when the stored state is
absent or strictly different. -/
def indicatorUpdate (tr : Trace) (id : String) (newVal : Bool) : Trace :=
  match alGet tr.st.host.states id with
  | none => doSetState tr id (JVal.bool newVal)
  | some v => if v ≠ JVal.bool newVal then doSetState tr id (JVal.bool newVal) else tr

/-- `updateConnectionStatus` (main.js lines 220-282).  The three `getState`
callbacks run asynchronously after the synchronous function body, so all of
them observe the `disableAdapter` value produced by the synchronous
hardware/software combination check; they are modelled here in call order
after that check.  When the adapter is disabled, the connection indicator is
written `false` unconditionally (line 233); the other two indicators are
written only on change. -/
def updateConnectionStatus (env : Env) (tr : Trace) : Trace :=
  let tr := comboCheck env tr
  let tr :=
    if tr.st.disableAdapter then doSetState tr "info.connection" (JVal.bool false)
    else indicatorUpdate tr "info.connection" (tr.st.noOfConnectionErrors = 0)
  let tr := indicatorUpdate tr "info.missing_state" tr.st.missingState
  indicatorUpdate tr "info.terminated" tr.st.disableAdapter

/-- The nonce fast-path of a successful poll (main.js lines 182-194): if the
response carries a truthy `meta.nonce` that differs from the cached one,
cache it, reset its timestamp and recompute the session secret; a missing or
falsy nonce only logs a warning. -/
def pollNonceUpdate (env : Env) (now : Int) (result : JVal) (tr : Trace) : Trace :=
  let nonceOpt :=
    match jvGet result "meta" with
    | some m => if jvalTruthy m then jvGet m "nonce" else none
    | none => none
  match nonceOpt with
  | some nv =>
      if jvalTruthy nv then
        if tr.st.nonce ≠ some nv then
          { tr with st := { tr.st with
              nonce := some nv
              nonceTimestamp := now
              hspin := some (calculateHSPIN env.md5h nv tr.st.hpin) } }
        else tr
      else { tr with events := tr.events ++ [Ev.warnLog "Nonce not found in the response"] }
  | none => { tr with events := tr.events ++ [Ev.warnLog "Nonce not found in the response"] }

/-- One poll cycle, `pollDeviceStatus` (main.js lines 150-217): clear the
timer, issue the GET, on a 200 response reset the error counter, run the
nonce fast-path and the full synchronizer (a `null` body makes the
`result.meta` access throw, which the catch turns into a counted connection
error); on any other outcome count a connection error.  Then publish the
health indicators and re-arm the timer unless the adapter is disabled. -/
def pollDeviceStatus (env : Env) (tr : Trace) (inp : PollInput) : Trace :=
  let tr : Trace := { tr with st := { tr.st with timerArmed := false } }
  let link := "http://" ++ env.cfg.fireplaceAddress ++ "/status.cgi?ts=" ++ toString inp.now
  let tr : Trace := { tr with events := tr.events ++ [Ev.httpGet link] }
  let tr :=
    match inp.response with
    | some (status, result) =>
        if status = 200 then
          let tr : Trace := { tr with st := { tr.st with noOfConnectionErrors := 0 } }
          match result with
          | JVal.null =>
              { st := { tr.st with noOfConnectionErrors := tr.st.noOfConnectionErrors + 1 }
                events := tr.events ++ [Ev.errorLog "Error retrieving status"] }
          | _ =>
              let tr := pollNonceUpdate env inp.now result tr
              syncState env inp.now result "" tr
        else
          { st := { tr.st with noOfConnectionErrors := tr.st.noOfConnectionErrors + 1 }
            events := tr.events ++ [Ev.errorLog "Error retrieving status"] }
    | none =>
        { st := { tr.st with noOfConnectionErrors := tr.st.noOfConnectionErrors + 1 }
          events := tr.events ++ [Ev.errorLog "Error retrieving status"] }
  let tr := updateConnectionStatus env tr
  if !tr.st.disableAdapter then { tr with st := { tr.st with timerArmed := true } } else tr

/-- `validateAndRefreshNonce` (main.js lines 429-437): perform a full status
poll iff the cached nonce is falsy or older than the expiry window; otherwise
do nothing. -/
def validateAndRefreshNonce (env : Env) (tr : Trace) (inp : PollInput) : Trace :=
  if shouldRefreshNonce tr.st.nonce tr.st.nonceTimestamp inp.now then
    pollDeviceStatus env tr inp
  else tr

/-- `makeAuthenticatedRequest` (main.js lines 413-426): refresh the nonce if
needed, rebuild the request headers from the current session secret and
`options.data`, then issue the POST.  The header rebuild receives the raw
body value from `options.data`; if that value is not a string,
`Buffer.byteLength` throws before any request is sent, and the error
propagates to the caller. -/
def makeAuthenticatedRequest (env : Env) (tr : Trace) (refreshInp : PollInput)
    (url : String) (data : JVal) (postResp : Option (Nat × JVal)) :
    Trace × Except String (Nat × JVal) :=
  let tr := validateAndRefreshNonce env tr refreshInp
  match createHeader env.cfg tr.st.hspin data with
  | Except.error e => (tr, Except.error e)
  | Except.ok h =>
      let tr : Trace := { tr with events := tr.events ++ [Ev.httpPost url data h] }
      match postResp with
      | some r => (tr, Except.ok r)
      | none => (tr, Except.error "network error")

/-- The command POST of `handleStateChange` (main.js lines 124-146): issue
the authenticated request; on HTTP 200 acknowledge the command value, on any
other status or error log it; in every case run an immediate extra poll. -/
def dispatchCommand (env : Env) (tr : Trace) (post_data : JVal) (stateToAcknowledge : String)
    (cmdVal : JVal) (refreshInp finalInp : PollInput) (postResp : Option (Nat × JVal)) : Trace :=
  let url := "http://" ++ env.cfg.fireplaceAddress ++ "/status.cgi"
  let (tr, res) := makeAuthenticatedRequest env tr refreshInp url post_data postResp
  let ackId := env.cfg.adapterNamespace ++ "." ++ stateToAcknowledge
  let tr :=
    match res with
    | Except.ok (status, _) =>
        if status = 200 then
          if ackId ∈ tr.st.host.failing then
            { tr with events := tr.events ++ [Ev.errorLog "Error executing stateChange (command)"] }
          else doSetState tr ackId cmdVal
        else { tr with events := tr.events ++ [Ev.errorLog "stateChange (command) was not successful"] }
    | Except.error _ =>
        { tr with events := tr.events ++ [Ev.errorLog "Error executing stateChange (command)"] }
  pollDeviceStatus env tr finalInp

/-- `handleStateChange` (main.js lines 83-147) for a non-acknowledged command
on one of the three writable points.  The eco-mode command first consults the
cached `device.meta.eco_editable` state point: a failing lookup logs an error
and returns, a falsy value logs a warning and drops the command; both leave
the adapter state untouched and issue no network call. -/
def handleStateChange (env : Env) (tr : Trace) (id : String) (state : Option InState)
    (refreshInp finalInp : PollInput) (postResp : Option (Nat × JVal)) : Trace :=
  match state with
  | none => tr
  | some s =>
      if s.ack then tr
      else
        let ns := env.cfg.adapterNamespace
        if id = ns ++ ".device.prg" then
          dispatchCommand env tr (JVal.obj [("prg", s.val)]) "device.prg" s.val refreshInp finalInp postResp
        else if id = ns ++ ".device.sp_temp" then
          dispatchCommand env tr (JVal.obj [("sp_temp", s.val)]) "device.sp_temp" s.val refreshInp finalInp postResp
        else if id = ns ++ ".device.eco_mode" then
          if "device.meta.eco_editable" ∈ tr.st.host.failing then
            { tr with events := tr.events ++ [Ev.errorLog "Error getting eco_editable state"] }
          else if jvalTruthyOpt (alGet tr.st.host.states "device.meta.eco_editable") then
            dispatchCommand env tr (JVal.obj [("eco_mode", s.val)]) "device.eco_mode" s.val refreshInp finalInp postResp
          else
            { tr with events := tr.events ++ [Ev.warnLog "Eco mode is not editable. Ignoring command to change eco mode."] }
        else
          { tr with events := tr.events ++ [Ev.warnLog "Unhandled state change"] }

/-- The adapter state right after `initialize` (main.js lines 11-24 and
56-65): every flag at its initial value and the derived PIN hash computed
once from the configured PIN. -/
def initialTrace (env : Env) (host : Host) : Trace :=
  { st :=
      { host := host
        deviceStates := []
        noOfConnectionErrors := 0
        missingState := false
        timerArmed := false
        disableAdapter := false
        hw_version := none
        sw_version := none
        hpin := calculateHPIN env.md5h env.cfg.pin
        hspin := none
        nonce := none
        nonceTimestamp := 0 }
    events := [] }

/-- The leaf visits recorded in a trace (one per processed leaf point). -/
def visitsOf : List Ev → List (String × JVal)
  | [] => []
  | Ev.visit n v :: rest => (n, v) :: visitsOf rest
  | _ :: rest => visitsOf rest

/-- The acknowledged publishes (`setState` with `ack = true`) in a trace. -/
def pubsOf : List Ev → List (String × JVal)
  | [] => []
  | Ev.publish id v true :: rest => (id, v) :: pubsOf rest
  | _ :: rest => pubsOf rest

/-- Number of HTTP GET status polls in a trace. -/
def countGets : List Ev → Nat
  | [] => 0
  | Ev.httpGet _ :: rest => countGets rest + 1
  | _ :: rest => countGets rest

/-- Number of HTTP POST requests in a trace. -/
def countPosts : List Ev → Nat
  | [] => 0
  | Ev.httpPost _ _ _ :: rest => countPosts rest + 1
  | _ :: rest => countPosts rest

/-- A leaf is stale when its stored host value differs from the coerced
reported value (the condition under which `syncState` publishes). -/
def staleLeaf (states : List (String × JVal)) (p : String × JVal) : Bool :=
  decide (alGet states p.1 ≠ some (coerceForStore p.2))

/-- Concrete configuration used by the executable witnesses below. -/
def cfg0 : Config :=
  { fireplaceAddress := "192.168.0.10"
    pollingInterval := 60
    pin := "1234"
    supportedHwSwVersions := [("1.0_V2.0", true)]
    adapterNamespace := "haassohn.0" }

/-- Concrete stand-in hash function for the witnesses (the model is
parametric in the hash). -/
def md5Fix : String → String := fun s => "#" ++ s

def env0 : Env := { md5h := md5Fix, cfg := cfg0 }

def host0 : Host := { objects := [], states := [], failing := [] }

/-- Host for the flattening example: both leaf objects exist, no stored
values. -/
def host3 : Host :=
  { objects := [("device.a.b", { write := JVal.bool false }),
                ("device.a.c", { write := JVal.bool false })]
    states := []
    failing := [] }

/-- The status document of the flattening example. -/
def doc3 : JVal :=
  JVal.obj [("a", JVal.obj [("b", JVal.num 1), ("c", JVal.arr [JVal.num 1, JVal.num 2])])]

/-- A trace with a fresh, truthy nonce and a session secret (no refresh
needed). -/
def trFresh : Trace :=
  { st := { (initialTrace env0 host0).st with
      nonce := some (JVal.str "XJ9A"), nonceTimestamp := 0, hspin := some "sec" }
    events := [] }

/-- A trace whose adapter is already disabled. -/
def trDis : Trace :=
  { st := { (initialTrace env0 host0).st with disableAdapter := true }
    events := [] }

/-- A trace with known hardware/software versions that are not on the
allow-list. -/
def trHw : Trace :=
  { st := { (initialTrace env0 host0).st with
      hw_version := some (JVal.str "1.0"), sw_version := some (JVal.str "V9") }
    events := [] }

/-- A trace whose host fails on the state identifier device.x. -/
def trFailX : Trace :=
  { st := { (initialTrace env0 { objects := [], states := [], failing := ["device.x"] }).st with
      nonce := none }
    events := [] }

/-- A disabled trace whose connection indicator already stores false. -/
def trC7 : Trace :=
  { st := { (initialTrace env0
      { objects := []
        states := [("info.connection", JVal.bool false),
                   ("info.missing_state", JVal.bool false),
                   ("info.terminated", JVal.bool true)]
        failing := [] }).st with disableAdapter := true }
    events := [] }

/-- A trace whose host stores a false eco-editable flag. -/
def trEco : Trace :=
  { st := (initialTrace env0
      { objects := []
        states := [("device.meta.eco_editable", JVal.bool false)]
        failing := [] }).st
    events := [] }

/-- A trace whose host has the device.eco_mode object but no
device.meta.eco_editable object. -/
def trEcoObj : Trace :=
  { st := (initialTrace env0
      { objects := [("device.eco_mode", { write := JVal.bool false })]
        states := []
        failing := [] }).st
    events := [] }

def inp0 : PollInput := { now := 0, response := none }

theorem visitsOf_append (l1 l2 : List Ev) : visitsOf (l1 ++ l2) = visitsOf l1 ++ visitsOf l2 := by
  induction l1 with
  | nil => simp [visitsOf]
  | cons e rest ih => cases e <;> simp [visitsOf, ih]

theorem pubsOf_append (l1 l2 : List Ev) : pubsOf (l1 ++ l2) = pubsOf l1 ++ pubsOf l2 := by
  induction l1 with
  | nil => simp [pubsOf]
  | cons e rest ih =>
    cases e with
    | publish id v ack => cases ack <;> simp [pubsOf, ih]
    | visit n v => simp [pubsOf, ih]
    | setObject i o => simp [pubsOf, ih]
    | httpGet u => simp [pubsOf, ih]
    | httpPost u b h => simp [pubsOf, ih]
    | warnMissing n => simp [pubsOf, ih]
    | warnLog m => simp [pubsOf, ih]
    | errorLog m => simp [pubsOf, ih]

theorem countGets_append (l1 l2 : List Ev) : countGets (l1 ++ l2) = countGets l1 + countGets l2 := by
  induction l1 with
  | nil => simp [countGets]
  | cons e rest ih => cases e <;> simp [countGets, ih] <;> omega

theorem countPosts_append (l1 l2 : List Ev) : countPosts (l1 ++ l2) = countPosts l1 + countPosts l2 := by
  induction l1 with
  | nil => simp [countPosts]
  | cons e rest ih => cases e <;> simp [countPosts, ih] <;> omega

/-- Generic invariant propagation through the recursive synchronizer: any
predicate preserved by leaf processing and by the error path is preserved by
`syncState` on arbitrary documents. -/
theorem sync_inv_aux (env : Env) (now : Int) (P : Trace → Prop)
    (hleaf : ∀ path key v tr, P tr → P (syncLeaf env now path key v tr))
    (herr : ∀ tr, P tr → P (markSyncError tr)) :
    ∀ n : Nat,
      (∀ v path tr, sizeOf v ≤ n → P tr → P (syncState env now v path tr)) ∧
      (∀ l path tr, sizeOf l ≤ n → P tr → P (syncFields env now l path tr)) := by
  intro n
  induction n with
  | zero =>
    constructor <;> intro v path tr h hP <;> exfalso <;> cases v <;> simp_all
  | succ n ih =>
    constructor
    · intro v path tr h hP
      cases v with
      | obj fields =>
        exact ih.2 fields path tr (by simp at h; omega) hP
      | null => exact herr tr hP
      | bool b => simpa [syncState] using hP
      | num m => simpa [syncState] using hP
      | str s => simpa [syncState] using hP
      | arr xs => simpa [syncState] using hP
    · intro l path tr h hP
      cases l with
      | nil => simpa [syncFields] using hP
      | cons p rest =>
        obtain ⟨key, v⟩ := p
        have hv : sizeOf v ≤ n := by simp at h; omega
        have hrest : sizeOf rest ≤ n := by simp at h; omega
        simp only [syncFields]
        apply ih.2 rest path _ hrest
        split
        · exact ih.1 v (joinPath path key) tr hv hP
        · exact hleaf path key v tr hP

theorem syncState_inv (env : Env) (now : Int) (P : Trace → Prop)
    (hleaf : ∀ path key v tr, P tr → P (syncLeaf env now path key v tr))
    (herr : ∀ tr, P tr → P (markSyncError tr))
    (v : JVal) (path : String) (tr : Trace) (hP : P tr) :
    P (syncState env now v path tr) :=
  (sync_inv_aux env now P hleaf herr (sizeOf v)).1 v path tr le_rfl hP


theorem nonceIntercept_host (env : Env) (now : Int) (sn : String) (nv : JVal) (tr : Trace) :
    (nonceIntercept env now sn nv tr).st.host = tr.st.host := by
  by_cases h : sn = "device.meta.nonce" ∧ tr.st.nonce ≠ some nv <;> simp [nonceIntercept, h]

theorem nonceIntercept_events (env : Env) (now : Int) (sn : String) (nv : JVal) (tr : Trace) :
    (nonceIntercept env now sn nv tr).events = tr.events := by
  by_cases h : sn = "device.meta.nonce" ∧ tr.st.nonce ≠ some nv <;> simp [nonceIntercept, h]

theorem nonceIntercept_flags (env : Env) (now : Int) (sn : String) (nv : JVal) (tr : Trace) :
    (nonceIntercept env now sn nv tr).st.missingState = tr.st.missingState ∧
    (nonceIntercept env now sn nv tr).st.disableAdapter = tr.st.disableAdapter ∧
    (nonceIntercept env now sn nv tr).st.timerArmed = tr.st.timerArmed ∧
    (nonceIntercept env now sn nv tr).st.hpin = tr.st.hpin ∧
    (nonceIntercept env now sn nv tr).st.noOfConnectionErrors = tr.st.noOfConnectionErrors := by
  by_cases h : sn = "device.meta.nonce" ∧ tr.st.nonce ≠ some nv <;> simp [nonceIntercept, h]

theorem versionIntercept_host (sn : String) (nv : JVal) (tr : Trace) :
    (versionIntercept sn nv tr).st.host = tr.st.host := by
  by_cases h1 : sn = "device.meta.hw_version" ∧ tr.st.hw_version ≠ some nv
  · simp [versionIntercept, h1]
  · by_cases h2 : sn = "device.meta.sw_version" ∧ tr.st.sw_version ≠ some nv <;>
      simp [versionIntercept, h1, h2]

theorem versionIntercept_events (sn : String) (nv : JVal) (tr : Trace) :
    (versionIntercept sn nv tr).events = tr.events := by
  by_cases h1 : sn = "device.meta.hw_version" ∧ tr.st.hw_version ≠ some nv
  · simp [versionIntercept, h1]
  · by_cases h2 : sn = "device.meta.sw_version" ∧ tr.st.sw_version ≠ some nv <;>
      simp [versionIntercept, h1, h2]

theorem versionIntercept_flags (sn : String) (nv : JVal) (tr : Trace) :
    (versionIntercept sn nv tr).st.missingState = tr.st.missingState ∧
    (versionIntercept sn nv tr).st.disableAdapter = tr.st.disableAdapter ∧
    (versionIntercept sn nv tr).st.timerArmed = tr.st.timerArmed ∧
    (versionIntercept sn nv tr).st.hpin = tr.st.hpin ∧
    (versionIntercept sn nv tr).st.noOfConnectionErrors = tr.st.noOfConnectionErrors := by
  by_cases h1 : sn = "device.meta.hw_version" ∧ tr.st.hw_version ≠ some nv
  · simp [versionIntercept, h1]
  · by_cases h2 : sn = "device.meta.sw_version" ∧ tr.st.sw_version ≠ some nv <;>
      simp [versionIntercept, h1, h2]

theorem ecoIntercept_states (sn : String) (v : JVal) (tr : Trace) :
    (ecoIntercept sn v tr).st.host.states = tr.st.host.states := by
  by_cases h1 : sn = "device.meta.eco_editable"
  · by_cases h2 : "device.eco_mode" ∈ tr.st.host.failing
    · simp [ecoIntercept, h1, h2, markSyncError]
    · rcases h3 : alGet tr.st.host.objects "device.eco_mode" with _ | o <;>
        simp [ecoIntercept, h1, h2, h3, doSetObject]
  · simp [ecoIntercept, h1]

theorem ecoIntercept_failing (sn : String) (v : JVal) (tr : Trace) :
    (ecoIntercept sn v tr).st.host.failing = tr.st.host.failing := by
  by_cases h1 : sn = "device.meta.eco_editable"
  · by_cases h2 : "device.eco_mode" ∈ tr.st.host.failing
    · simp [ecoIntercept, h1, h2, markSyncError]
    · rcases h3 : alGet tr.st.host.objects "device.eco_mode" with _ | o <;>
        simp [ecoIntercept, h1, h2, h3, doSetObject]
  · simp [ecoIntercept, h1]

theorem ecoIntercept_flags (sn : String) (v : JVal) (tr : Trace) :
    (ecoIntercept sn v tr).st.missingState = tr.st.missingState ∧
    (ecoIntercept sn v tr).st.timerArmed = tr.st.timerArmed ∧
    (ecoIntercept sn v tr).st.hpin = tr.st.hpin ∧
    (ecoIntercept sn v tr).st.noOfConnectionErrors = tr.st.noOfConnectionErrors := by
  by_cases h1 : sn = "device.meta.eco_editable"
  · by_cases h2 : "device.eco_mode" ∈ tr.st.host.failing
    · simp [ecoIntercept, h1, h2, markSyncError]
    · rcases h3 : alGet tr.st.host.objects "device.eco_mode" with _ | o <;>
        simp [ecoIntercept, h1, h2, h3, doSetObject]
  · simp [ecoIntercept, h1]

theorem ecoIntercept_disable_mono (sn : String) (v : JVal) (tr : Trace)
    (h : tr.st.disableAdapter = true) :
    (ecoIntercept sn v tr).st.disableAdapter = true := by
  by_cases h1 : sn = "device.meta.eco_editable"
  · by_cases h2 : "device.eco_mode" ∈ tr.st.host.failing
    · simp [ecoIntercept, h1, h2, markSyncError]
    · rcases h3 : alGet tr.st.host.objects "device.eco_mode" with _ | o <;>
        simp [ecoIntercept, h1, h2, h3, doSetObject, h]
  · simp [ecoIntercept, h1, h]

theorem ecoIntercept_disable_nofail (sn : String) (v : JVal) (tr : Trace)
    (h : tr.st.host.failing = []) :
    (ecoIntercept sn v tr).st.disableAdapter = tr.st.disableAdapter := by
  by_cases h1 : sn = "device.meta.eco_editable"
  · have h2 : "device.eco_mode" ∉ tr.st.host.failing := by simp [h]
    rcases h3 : alGet tr.st.host.objects "device.eco_mode" with _ | o <;>
      simp [ecoIntercept, h1, h2, h3, doSetObject]
  · simp [ecoIntercept, h1]

theorem ecoIntercept_objAbsent (sn : String) (v : JVal) (tr : Trace) (nm : String)
    (h : alGet tr.st.host.objects nm = none) :
    alGet (ecoIntercept sn v tr).st.host.objects nm = none := by
  by_cases h1 : sn = "device.meta.eco_editable"
  · by_cases h2 : "device.eco_mode" ∈ tr.st.host.failing
    · simp [ecoIntercept, h1, h2, markSyncError, h]
    · rcases h3 : alGet tr.st.host.objects "device.eco_mode" with _ | o
      · simp [ecoIntercept, h1, h2, h3, h]
      · have hne : "device.eco_mode" ≠ nm := by
          intro heq; rw [heq] at h3; rw [h3] at h; cases h
        simp [ecoIntercept, h1, h2, h3, doSetObject, alGet_alSet_ne _ _ _ _ hne, h]
  · simp [ecoIntercept, h1, h]

theorem ecoIntercept_obj_isSome (sn : String) (v : JVal) (tr : Trace) (nm : String) :
    (alGet (ecoIntercept sn v tr).st.host.objects nm).isSome
      = (alGet tr.st.host.objects nm).isSome := by
  by_cases h1 : sn = "device.meta.eco_editable"
  · by_cases h2 : "device.eco_mode" ∈ tr.st.host.failing
    · simp [ecoIntercept, h1, h2, markSyncError]
    · rcases h3 : alGet tr.st.host.objects "device.eco_mode" with _ | o
      · simp [ecoIntercept, h1, h2, h3]
      · by_cases hne : "device.eco_mode" = nm
        · subst hne
          simp [ecoIntercept, h1, h2, h3, doSetObject, alGet_alSet_eq]
        · simp [ecoIntercept, h1, h2, h3, doSetObject, alGet_alSet_ne _ _ _ _ hne]
  · simp [ecoIntercept, h1]

theorem ecoIntercept_trace (sn : String) (v : JVal) (tr : Trace) :
    visitsOf (ecoIntercept sn v tr).events = visitsOf tr.events ∧
    pubsOf (ecoIntercept sn v tr).events = pubsOf tr.events ∧
    countGets (ecoIntercept sn v tr).events = countGets tr.events ∧
    countPosts (ecoIntercept sn v tr).events = countPosts tr.events := by
  by_cases h1 : sn = "device.meta.eco_editable"
  · by_cases h2 : "device.eco_mode" ∈ tr.st.host.failing
    · simp [ecoIntercept, h1, h2, markSyncError, visitsOf_append, pubsOf_append,
            countGets_append, countPosts_append, visitsOf, pubsOf, countGets, countPosts]
    · rcases h3 : alGet tr.st.host.objects "device.eco_mode" with _ | o <;>
        simp [ecoIntercept, h1, h2, h3, doSetObject, visitsOf_append, pubsOf_append,
              countGets_append, countPosts_append, visitsOf, pubsOf, countGets, countPosts]
  · simp [ecoIntercept, h1]

theorem syncLeafFound_flags (env : Env) (now : Int) (sn : String) (value : JVal) (tr : Trace) :
    (syncLeafFound env now sn value tr).st.missingState = tr.st.missingState ∧
    (syncLeafFound env now sn value tr).st.disableAdapter = tr.st.disableAdapter ∧
    (syncLeafFound env now sn value tr).st.timerArmed = tr.st.timerArmed ∧
    (syncLeafFound env now sn value tr).st.hpin = tr.st.hpin ∧
    (syncLeafFound env now sn value tr).st.noOfConnectionErrors = tr.st.noOfConnectionErrors := by
  unfold syncLeafFound
  dsimp only
  rcases h : alGet tr.st.host.states sn with _ | cur
  · simp only [h, doSetState]
    simp [nonceIntercept_flags, versionIntercept_flags,
          (versionIntercept_flags _ _ _).1, (versionIntercept_flags _ _ _).2.1,
          (versionIntercept_flags _ _ _).2.2.1, (versionIntercept_flags _ _ _).2.2.2.1,
          (versionIntercept_flags _ _ _).2.2.2.2,
          (nonceIntercept_flags _ _ _ _ _).1, (nonceIntercept_flags _ _ _ _ _).2.1,
          (nonceIntercept_flags _ _ _ _ _).2.2.1, (nonceIntercept_flags _ _ _ _ _).2.2.2.1,
          (nonceIntercept_flags _ _ _ _ _).2.2.2.2]
  · simp only [h]
    split <;>
      simp [doSetState,
            (versionIntercept_flags _ _ _).1, (versionIntercept_flags _ _ _).2.1,
            (versionIntercept_flags _ _ _).2.2.1, (versionIntercept_flags _ _ _).2.2.2.1,
            (versionIntercept_flags _ _ _).2.2.2.2,
            (nonceIntercept_flags _ _ _ _ _).1, (nonceIntercept_flags _ _ _ _ _).2.1,
            (nonceIntercept_flags _ _ _ _ _).2.2.1, (nonceIntercept_flags _ _ _ _ _).2.2.2.1,
            (nonceIntercept_flags _ _ _ _ _).2.2.2.2]

theorem syncLeafFound_hostObjects (env : Env) (now : Int) (sn : String) (value : JVal) (tr : Trace) :
    (syncLeafFound env now sn value tr).st.host.objects = tr.st.host.objects ∧
    (syncLeafFound env now sn value tr).st.host.failing = tr.st.host.failing := by
  unfold syncLeafFound
  dsimp only
  rcases h : alGet tr.st.host.states sn with _ | cur
  · simp [doSetState, nonceIntercept_host, versionIntercept_host]
  · simp only [h]
    split <;> simp [doSetState, nonceIntercept_host, versionIntercept_host]

theorem syncLeafFound_trace (env : Env) (now : Int) (sn : String) (value : JVal) (tr : Trace) :
    visitsOf (syncLeafFound env now sn value tr).events = visitsOf tr.events ∧
    countGets (syncLeafFound env now sn value tr).events = countGets tr.events ∧
    countPosts (syncLeafFound env now sn value tr).events = countPosts tr.events := by
  unfold syncLeafFound
  dsimp only
  rcases h : alGet tr.st.host.states sn with _ | cur
  · simp [doSetState, nonceIntercept_events, versionIntercept_events,
          visitsOf_append, countGets_append, countPosts_append, visitsOf, countGets, countPosts]
  · simp only [h]
    split <;>
      simp [doSetState, nonceIntercept_events, versionIntercept_events,
            visitsOf_append, countGets_append, countPosts_append, visitsOf, countGets, countPosts]

/-- Precise publish/store behavior of the present-object branch: the coerced
value is published (with acknowledgement) exactly when the stored value is
absent or different, and afterwards the stored value is the coerced value;
no other state identifier is affected. -/
theorem syncLeafFound_pubs (env : Env) (now : Int) (sn : String) (value : JVal) (tr : Trace) :
    (pubsOf (syncLeafFound env now sn value tr).events =
      pubsOf tr.events ++
        (if alGet tr.st.host.states sn = some (coerceForStore value) then []
         else [(sn, coerceForStore value)])) ∧
    alGet (syncLeafFound env now sn value tr).st.host.states sn = some (coerceForStore value) ∧
    (∀ n, n ≠ sn →
      alGet (syncLeafFound env now sn value tr).st.host.states n = alGet tr.st.host.states n) := by
  unfold syncLeafFound
  dsimp only
  rcases h : alGet tr.st.host.states sn with _ | cur
  · simp [doSetState, nonceIntercept_events, versionIntercept_events, nonceIntercept_host,
          versionIntercept_host, pubsOf_append, pubsOf, h, alGet_alSet_eq]
    intro n hn
    rw [alGet_alSet_ne _ _ _ _ (fun hx => hn hx.symm)]
  · simp only [h]
    split
    · rename_i hne
      simp [doSetState, nonceIntercept_events, versionIntercept_events, nonceIntercept_host,
            versionIntercept_host, pubsOf_append, pubsOf, h, hne, alGet_alSet_eq]
      intro n hn
      rw [alGet_alSet_ne _ _ _ _ (fun hx => hn hx.symm)]
    · rename_i hne
      rw [not_not] at hne
      subst hne
      have hcond : alGet tr.st.host.states sn = some (coerceForStore value) := h
      simp [doSetState, nonceIntercept_events, versionIntercept_events, nonceIntercept_host,
            versionIntercept_host, hcond, h]

theorem syncLeaf_flags (env : Env) (now : Int) (path key : String) (value : JVal) (tr : Trace) :
    (syncLeaf env now path key value tr).st.timerArmed = tr.st.timerArmed ∧
    (syncLeaf env now path key value tr).st.hpin = tr.st.hpin ∧
    (syncLeaf env now path key value tr).st.host.failing = tr.st.host.failing ∧
    (syncLeaf env now path key value tr).st.noOfConnectionErrors = tr.st.noOfConnectionErrors := by
  unfold syncLeaf
  dsimp only
  split
  · simp [markSyncError]
  · rw [(ecoIntercept_flags _ _ _).2.1, (ecoIntercept_flags _ _ _).2.2.1,
        (ecoIntercept_flags _ _ _).2.2.2, ecoIntercept_failing]
    split
    · simp [(syncLeafFound_flags _ _ _ _ _).2.2.1, (syncLeafFound_flags _ _ _ _ _).2.2.2.1,
            (syncLeafFound_flags _ _ _ _ _).2.2.2.2, (syncLeafFound_hostObjects _ _ _ _ _).2]
    · simp [syncLeafMissing]

theorem syncLeaf_missing_mono (env : Env) (now : Int) (path key : String) (value : JVal)
    (tr : Trace) (h : tr.st.missingState = true) :
    (syncLeaf env now path key value tr).st.missingState = true := by
  unfold syncLeaf
  dsimp only
  split
  · simpa [markSyncError] using h
  · rw [(ecoIntercept_flags _ _ _).1]
    split
    · rw [(syncLeafFound_flags _ _ _ _ _).1]
      simpa using h
    · simp [syncLeafMissing]

theorem syncLeaf_disable_mono (env : Env) (now : Int) (path key : String) (value : JVal)
    (tr : Trace) (h : tr.st.disableAdapter = true) :
    (syncLeaf env now path key value tr).st.disableAdapter = true := by
  unfold syncLeaf
  dsimp only
  split
  · simp [markSyncError]
  · apply ecoIntercept_disable_mono
    split
    · rw [(syncLeafFound_flags _ _ _ _ _).2.1]
      simpa using h
    · simpa [syncLeafMissing] using h

theorem syncLeaf_objAbsent (env : Env) (now : Int) (path key : String) (value : JVal)
    (tr : Trace) (nm : String) (h : alGet tr.st.host.objects nm = none) :
    alGet (syncLeaf env now path key value tr).st.host.objects nm = none := by
  unfold syncLeaf
  dsimp only
  split
  · simpa [markSyncError] using h
  · apply ecoIntercept_objAbsent
    split
    · rw [(syncLeafFound_hostObjects _ _ _ _ _).1]
      simpa using h
    · simpa [syncLeafMissing] using h

theorem syncLeaf_trace (env : Env) (now : Int) (path key : String) (value : JVal) (tr : Trace) :
    countGets (syncLeaf env now path key value tr).events = countGets tr.events ∧
    countPosts (syncLeaf env now path key value tr).events = countPosts tr.events ∧
    visitsOf (syncLeaf env now path key value tr).events
      = visitsOf tr.events ++ [(stateNameOf path key, value)] := by
  unfold syncLeaf
  dsimp only
  split
  · simp [markSyncError, countGets_append, countPosts_append, visitsOf_append,
          countGets, countPosts, visitsOf]
  · rw [(ecoIntercept_trace _ _ _).2.2.1, (ecoIntercept_trace _ _ _).2.2.2,
        (ecoIntercept_trace _ _ _).1]
    split
    · rw [(syncLeafFound_trace _ _ _ _ _).2.1, (syncLeafFound_trace _ _ _ _ _).2.2,
          (syncLeafFound_trace _ _ _ _ _).1]
      simp [countGets_append, countPosts_append, visitsOf_append, countGets, countPosts, visitsOf]
    · simp [syncLeafMissing, countGets_append, countPosts_append, visitsOf_append,
            countGets, countPosts, visitsOf]

theorem syncState_missing_mono (env : Env) (now : Int) (v : JVal) (path : String) (tr : Trace)
    (h : tr.st.missingState = true) :
    (syncState env now v path tr).st.missingState = true :=
  syncState_inv env now (fun t => t.st.missingState = true)
    (fun p k vv t ht => syncLeaf_missing_mono env now p k vv t ht)
    (fun t ht => by simpa [markSyncError] using ht) v path tr h

theorem syncState_disable_mono (env : Env) (now : Int) (v : JVal) (path : String) (tr : Trace)
    (h : tr.st.disableAdapter = true) :
    (syncState env now v path tr).st.disableAdapter = true :=
  syncState_inv env now (fun t => t.st.disableAdapter = true)
    (fun p k vv t ht => syncLeaf_disable_mono env now p k vv t ht)
    (fun t _ => by simp [markSyncError]) v path tr h

theorem syncState_timer (env : Env) (now : Int) (v : JVal) (path : String) (tr : Trace) :
    (syncState env now v path tr).st.timerArmed = tr.st.timerArmed :=
  syncState_inv env now (fun t => t.st.timerArmed = tr.st.timerArmed)
    (fun p k vv t ht => by dsimp only; rw [(syncLeaf_flags env now p k vv t).1]; exact ht)
    (fun t ht => by simpa [markSyncError] using ht) v path tr rfl

theorem syncState_hpin (env : Env) (now : Int) (v : JVal) (path : String) (tr : Trace) :
    (syncState env now v path tr).st.hpin = tr.st.hpin :=
  syncState_inv env now (fun t => t.st.hpin = tr.st.hpin)
    (fun p k vv t ht => by dsimp only; rw [(syncLeaf_flags env now p k vv t).2.1]; exact ht)
    (fun t ht => by simpa [markSyncError] using ht) v path tr rfl

theorem syncState_failing (env : Env) (now : Int) (v : JVal) (path : String) (tr : Trace) :
    (syncState env now v path tr).st.host.failing = tr.st.host.failing :=
  syncState_inv env now (fun t => t.st.host.failing = tr.st.host.failing)
    (fun p k vv t ht => by dsimp only; rw [(syncLeaf_flags env now p k vv t).2.2.1]; exact ht)
    (fun t ht => by simpa [markSyncError] using ht) v path tr rfl

theorem syncState_objAbsent (env : Env) (now : Int) (v : JVal) (path : String) (tr : Trace)
    (nm : String) (h : alGet tr.st.host.objects nm = none) :
    alGet (syncState env now v path tr).st.host.objects nm = none :=
  syncState_inv env now (fun t => alGet t.st.host.objects nm = none)
    (fun p k vv t ht => syncLeaf_objAbsent env now p k vv t nm ht)
    (fun t ht => by simpa [markSyncError] using ht) v path tr h

theorem syncState_countGets (env : Env) (now : Int) (v : JVal) (path : String) (tr : Trace) :
    countGets (syncState env now v path tr).events = countGets tr.events :=
  syncState_inv env now (fun t => countGets t.events = countGets tr.events)
    (fun p k vv t ht => by dsimp only; rw [(syncLeaf_trace env now p k vv t).1]; exact ht)
    (fun t ht => by
      simpa [markSyncError, countGets_append, countGets] using ht) v path tr rfl

theorem syncState_countPosts (env : Env) (now : Int) (v : JVal) (path : String) (tr : Trace) :
    countPosts (syncState env now v path tr).events = countPosts tr.events :=
  syncState_inv env now (fun t => countPosts t.events = countPosts tr.events)
    (fun p k vv t ht => by dsimp only; rw [(syncLeaf_trace env now p k vv t).2.1]; exact ht)
    (fun t ht => by
      simpa [markSyncError, countPosts_append, countPosts] using ht) v path tr rfl

/-- The synchronizer visits exactly the leaves described by the declarative
flattening, in order. -/
theorem sync_visits_aux (env : Env) (now : Int) : ∀ n : Nat,
    (∀ v path tr, sizeOf v ≤ n →
      visitsOf (syncState env now v path tr).events = visitsOf tr.events ++ flattenNode v path) ∧
    (∀ l path tr, sizeOf l ≤ n →
      visitsOf (syncFields env now l path tr).events = visitsOf tr.events ++ flattenFields l path) := by
  intro n
  induction n with
  | zero =>
    constructor <;> intro v path tr h <;> exfalso <;> cases v <;> simp_all
  | succ n ih =>
    constructor
    · intro v path tr h
      cases v with
      | obj fields => exact ih.2 fields path tr (by simp at h; omega)
      | null => simp [syncState, markSyncError, visitsOf_append, visitsOf, flattenNode]
      | bool b => simp [syncState, flattenNode]
      | num m => simp [syncState, flattenNode]
      | str s => simp [syncState, flattenNode]
      | arr xs => simp [syncState, flattenNode]
    · intro l path tr h
      cases l with
      | nil => simp [syncFields, flattenFields]
      | cons p rest =>
        obtain ⟨key, v⟩ := p
        have hv : sizeOf v ≤ n := by simp at h; omega
        have hrest : sizeOf rest ≤ n := by simp at h; omega
        simp only [syncFields, flattenFields]
        rw [ih.2 rest path _ hrest]
        split
        · rw [ih.1 v (joinPath path key) tr hv, List.append_assoc]
        · rw [(syncLeaf_trace env now path key v tr).2.2, List.append_assoc]

theorem syncState_visits (env : Env) (now : Int) (v : JVal) (path : String) (tr : Trace) :
    visitsOf (syncState env now v path tr).events = visitsOf tr.events ++ flattenNode v path :=
  (sync_visits_aux env now (sizeOf v)).1 v path tr le_rfl

/-- Full behavior of one leaf when the host is healthy (no failing
identifiers) and the leaf's object exists: the coerced value is published
exactly when the stored value is absent or different; afterwards the stored
value equals the coerced value; no other state is touched; object presence is
unchanged. -/
theorem syncLeaf_ok (env : Env) (now : Int) (path key : String) (value : JVal) (tr : Trace)
    (hfail : tr.st.host.failing = [])
    (hobj : (alGet tr.st.host.objects (stateNameOf path key)).isSome = true) :
    (pubsOf (syncLeaf env now path key value tr).events =
      pubsOf tr.events ++
        (if alGet tr.st.host.states (stateNameOf path key) = some (coerceForStore value) then []
         else [(stateNameOf path key, coerceForStore value)])) ∧
    alGet (syncLeaf env now path key value tr).st.host.states (stateNameOf path key)
      = some (coerceForStore value) ∧
    (∀ m, m ≠ stateNameOf path key →
      alGet (syncLeaf env now path key value tr).st.host.states m = alGet tr.st.host.states m) ∧
    (∀ m, (alGet (syncLeaf env now path key value tr).st.host.objects m).isSome
      = (alGet tr.st.host.objects m).isSome) ∧
    (syncLeaf env now path key value tr).st.disableAdapter = tr.st.disableAdapter := by
  unfold syncLeaf
  dsimp only
  rw [if_neg (by simp [hfail])]
  rcases hON : alGet tr.st.host.objects (stateNameOf path key) with _ | o
  · rw [hON] at hobj; simp at hobj
  · simp only [hON]
    have hslf := syncLeafFound_pubs env now (stateNameOf path key) value
      { st := { tr.st with
          deviceStates := alSet tr.st.deviceStates (stateNameOf path key) (some value) }
        events := tr.events ++ [Ev.visit (stateNameOf path key) value] }
    refine ⟨?_, ?_, ?_, ?_, ?_⟩
    · rw [(ecoIntercept_trace _ _ _).2.1, hslf.1]
      simp [pubsOf_append, pubsOf]
    · rw [ecoIntercept_states, hslf.2.1]
    · intro m hm
      rw [ecoIntercept_states, hslf.2.2 m (by simpa using hm)]
    · intro m
      rw [ecoIntercept_obj_isSome, (syncLeafFound_hostObjects _ _ _ _ _).1]
    · rw [ecoIntercept_disable_nofail _ _ _ (by
        rw [(syncLeafFound_hostObjects _ _ _ _ _).2]; exact hfail)]
      rw [(syncLeafFound_flags _ _ _ _ _).2.1]

theorem sync_pubs_aux (env : Env) (now : Int) : ∀ n : Nat,
    (∀ v path tr, sizeOf v ≤ n →
      tr.st.host.failing = [] →
      ((flattenNode v path).map Prod.fst).Nodup →
      (∀ p ∈ flattenNode v path, (alGet tr.st.host.objects p.1).isSome = true) →
      (pubsOf (syncState env now v path tr).events =
        pubsOf tr.events ++
          ((flattenNode v path).filter (staleLeaf tr.st.host.states)).map
            (fun p => (p.1, coerceForStore p.2))) ∧
      (∀ p ∈ flattenNode v path,
        alGet (syncState env now v path tr).st.host.states p.1 = some (coerceForStore p.2)) ∧
      (∀ m, m ∉ (flattenNode v path).map Prod.fst →
        alGet (syncState env now v path tr).st.host.states m = alGet tr.st.host.states m) ∧
      (∀ m, (alGet (syncState env now v path tr).st.host.objects m).isSome
        = (alGet tr.st.host.objects m).isSome) ∧
      (syncState env now v path tr).st.host.failing = []) ∧
    (∀ l path tr, sizeOf l ≤ n →
      tr.st.host.failing = [] →
      ((flattenFields l path).map Prod.fst).Nodup →
      (∀ p ∈ flattenFields l path, (alGet tr.st.host.objects p.1).isSome = true) →
      (pubsOf (syncFields env now l path tr).events =
        pubsOf tr.events ++
          ((flattenFields l path).filter (staleLeaf tr.st.host.states)).map
            (fun p => (p.1, coerceForStore p.2))) ∧
      (∀ p ∈ flattenFields l path,
        alGet (syncFields env now l path tr).st.host.states p.1 = some (coerceForStore p.2)) ∧
      (∀ m, m ∉ (flattenFields l path).map Prod.fst →
        alGet (syncFields env now l path tr).st.host.states m = alGet tr.st.host.states m) ∧
      (∀ m, (alGet (syncFields env now l path tr).st.host.objects m).isSome
        = (alGet tr.st.host.objects m).isSome) ∧
      (syncFields env now l path tr).st.host.failing = []) := by
  intro n
  induction n with
  | zero =>
    constructor <;> intro v path tr h <;> exfalso <;> cases v <;> simp_all
  | succ n ih =>
    constructor
    · intro v path tr h hfail hnodup hpres
      cases v with
      | obj fields => exact ih.2 fields path tr (by simp at h; omega) hfail hnodup hpres
      | null =>
        simp [syncState, markSyncError, flattenNode, pubsOf_append, pubsOf, hfail]
      | bool b => simp [syncState, flattenNode, hfail]
      | num m => simp [syncState, flattenNode, hfail]
      | str s => simp [syncState, flattenNode, hfail]
      | arr xs => simp [syncState, flattenNode, hfail]
    · intro l path tr h hfail hnodup hpres
      cases l with
      | nil => simp [syncFields, flattenFields, hfail]
      | cons hd rest =>
        obtain ⟨key, v⟩ := hd
        have hv : sizeOf v ≤ n := by simp at h; omega
        have hrest : sizeOf rest ≤ n := by simp at h; omega
        by_cases hrec : isRecurseNode v = true
        · -- recursive child
          have hflat : flattenFields ((key, v) :: rest) path
              = flattenNode v (joinPath path key) ++ flattenFields rest path := by
            simp [flattenFields, hrec]
          rw [hflat] at hnodup hpres ⊢
          rw [List.map_append] at hnodup
          obtain ⟨hA, hB, hdisj⟩ := List.nodup_append.mp hnodup
          have hchild := ih.1 v (joinPath path key) tr hv hfail hA
            (fun p hp => hpres p (List.mem_append_left _ hp))
          set tr1 := syncState env now v (joinPath path key) tr with htr1
          have hstep : syncFields env now ((key, v) :: rest) path tr
              = syncFields env now rest path tr1 := by
            simp [syncFields, hrec, htr1]
          rw [hstep]
          have hrestC := ih.2 rest path tr1 hrest hchild.2.2.2.2 hB
            (fun p hp => by
              rw [hchild.2.2.2.1 p.1]
              exact hpres p (List.mem_append_right _ hp))
          have hBfilter : (flattenFields rest path).filter (staleLeaf tr1.st.host.states)
              = (flattenFields rest path).filter (staleLeaf tr.st.host.states) := by
            apply List.filter_congr
            intro p hp
            have hnotA : p.1 ∉ (flattenNode v (joinPath path key)).map Prod.fst := by
              intro hmem
              exact hdisj hmem (List.mem_map_of_mem Prod.fst hp)
            simp only [staleLeaf, hchild.2.2.1 p.1 hnotA]
          refine ⟨?_, ?_, ?_, ?_, ?_⟩
          · rw [hrestC.1, hBfilter, hchild.1, List.filter_append, List.map_append,
                List.append_assoc]
          · intro p hp
            rcases List.mem_append.mp hp with hpl | hpr
            · have hnotB : p.1 ∉ (flattenFields rest path).map Prod.fst := by
                intro hmem
                exact hdisj (List.mem_map_of_mem Prod.fst hpl) hmem
              rw [hrestC.2.2.1 p.1 hnotB, hchild.2.1 p hpl]
            · exact hrestC.2.1 p hpr
          · intro m hm
            rw [List.map_append, List.mem_append] at hm
            push_neg at hm
            rw [hrestC.2.2.1 m hm.2, hchild.2.2.1 m hm.1]
          · intro m
            rw [hrestC.2.2.2.1 m, hchild.2.2.2.1 m]
          · exact hrestC.2.2.2.2
        · -- leaf child
          have hflat : flattenFields ((key, v) :: rest) path
              = [(stateNameOf path key, v)] ++ flattenFields rest path := by
            simp [flattenFields, hrec]
          rw [hflat] at hnodup hpres ⊢
          rw [List.map_append] at hnodup
          obtain ⟨hA, hB, hdisj⟩ := List.nodup_append.mp hnodup
          have hobj : (alGet tr.st.host.objects (stateNameOf path key)).isSome = true :=
            hpres (stateNameOf path key, v) (List.mem_append_left _ (by simp))
          have hchild := syncLeaf_ok env now path key v tr hfail hobj
          set tr1 := syncLeaf env now path key v tr with htr1
          have hfailT1 : tr1.st.host.failing = [] := by
            rw [htr1, (syncLeaf_flags env now path key v tr).2.2.1]; exact hfail
          have hstep : syncFields env now ((key, v) :: rest) path tr
              = syncFields env now rest path tr1 := by
            simp [syncFields, hrec, htr1]
          rw [hstep]
          have hrestC := ih.2 rest path tr1 hrest hfailT1 hB
            (fun p hp => by
              rw [hchild.2.2.2.1 p.1]
              exact hpres p (List.mem_append_right _ hp))
          have hBfilter : (flattenFields rest path).filter (staleLeaf tr1.st.host.states)
              = (flattenFields rest path).filter (staleLeaf tr.st.host.states) := by
            apply List.filter_congr
            intro p hp
            have hne : p.1 ≠ stateNameOf path key := by
              intro heq
              exact hdisj (by simp [heq]) (List.mem_map_of_mem Prod.fst hp)
            simp only [staleLeaf, hchild.2.2.1 p.1 hne]
          have hsingle : ([(stateNameOf path key, v)].filter (staleLeaf tr.st.host.states)).map
              (fun p => (p.1, coerceForStore p.2))
              = (if alGet tr.st.host.states (stateNameOf path key) = some (coerceForStore v)
                 then [] else [(stateNameOf path key, coerceForStore v)]) := by
            by_cases hs : alGet tr.st.host.states (stateNameOf path key)
                = some (coerceForStore v) <;>
              simp [staleLeaf, hs]
          refine ⟨?_, ?_, ?_, ?_, ?_⟩
          · rw [hrestC.1, hBfilter, hchild.1, List.filter_append, List.map_append,
                List.append_assoc, hsingle]
          · intro p hp
            rcases List.mem_append.mp hp with hpl | hpr
            · have hpv : p = (stateNameOf path key, v) := by simpa using hpl
              subst hpv
              have hnotB : stateNameOf path key ∉ (flattenFields rest path).map Prod.fst := by
                intro hmem
                exact hdisj (by simp) hmem
              rw [hrestC.2.2.1 _ hnotB, hchild.2.1]
            · exact hrestC.2.1 p hpr
          · intro m hm
            rw [List.map_append, List.mem_append] at hm
            push_neg at hm
            have hmne : m ≠ stateNameOf path key := by
              intro heq
              exact hm.1 (by simp [heq])
            rw [hrestC.2.2.1 m hm.2, hchild.2.2.1 m hmne]
          · intro m
            rw [hrestC.2.2.2.1 m, hchild.2.2.2.1 m]
          · exact hrestC.2.2.2.2

theorem comboCheck_fields (env : Env) (tr : Trace) :
    (comboCheck env tr).st.host = tr.st.host ∧
    (comboCheck env tr).st.missingState = tr.st.missingState ∧
    (comboCheck env tr).st.timerArmed = tr.st.timerArmed ∧
    (comboCheck env tr).st.hpin = tr.st.hpin ∧
    (comboCheck env tr).st.noOfConnectionErrors = tr.st.noOfConnectionErrors ∧
    pubsOf (comboCheck env tr).events = pubsOf tr.events ∧
    countGets (comboCheck env tr).events = countGets tr.events ∧
    countPosts (comboCheck env tr).events = countPosts tr.events := by
  unfold comboCheck
  rcases tr.st.hw_version with _ | hw <;> rcases tr.st.sw_version with _ | sw <;>
    simp [pubsOf_append, countGets_append, countPosts_append, pubsOf, countGets, countPosts]
  rcases alGet env.cfg.supportedHwSwVersions (jsToString hw ++ "_" ++ jsToString sw) with _ | b
  · simp [pubsOf_append, countGets_append, countPosts_append, pubsOf, countGets, countPosts]
  · cases b <;>
      simp [pubsOf_append, countGets_append, countPosts_append, pubsOf, countGets, countPosts]

theorem comboCheck_disable_mono (env : Env) (tr : Trace) (h : tr.st.disableAdapter = true) :
    (comboCheck env tr).st.disableAdapter = true := by
  unfold comboCheck
  rcases tr.st.hw_version with _ | hw <;> rcases tr.st.sw_version with _ | sw <;> simp [h]
  rcases alGet env.cfg.supportedHwSwVersions (jsToString hw ++ "_" ++ jsToString sw) with _ | b
  · simp
  · cases b <;> simp [h]

/-- An unsupported (or merely unlisted) hardware/software combination
disables the adapter. -/
theorem comboCheck_unsupported (env : Env) (tr : Trace) (hw sw : JVal)
    (hhw : tr.st.hw_version = some hw) (hsw : tr.st.sw_version = some sw)
    (hbad : alGet env.cfg.supportedHwSwVersions (jsToString hw ++ "_" ++ jsToString sw)
      ≠ some true) :
    (comboCheck env tr).st.disableAdapter = true := by
  unfold comboCheck
  rw [hhw, hsw]
  rcases hlk : alGet env.cfg.supportedHwSwVersions (jsToString hw ++ "_" ++ jsToString sw)
    with _ | b
  · simp
  · cases b
    · simp
    · exact absurd hlk hbad

/-- A disable transition inside `comboCheck` only happens on a known
hardware/software pair whose allow-list entry is absent or false. -/
theorem comboCheck_disable_cause (env : Env) (tr : Trace)
    (h : (comboCheck env tr).st.disableAdapter = true) (h0 : tr.st.disableAdapter = false) :
    ∃ hw sw, tr.st.hw_version = some hw ∧ tr.st.sw_version = some sw ∧
      alGet env.cfg.supportedHwSwVersions (jsToString hw ++ "_" ++ jsToString sw) ≠ some true := by
  unfold comboCheck at h
  rcases hhw : tr.st.hw_version with _ | hw <;> rcases hsw : tr.st.sw_version with _ | sw <;>
    rw [hhw, hsw] at h <;> simp_all
  rcases hlk : alGet env.cfg.supportedHwSwVersions (jsToString hw ++ "_" ++ jsToString sw)
    with _ | b
  · simp
  · rw [hlk] at h
    cases b
    · simp
    · simp at h
      rw [h0] at h
      cases h

theorem indicatorUpdate_fields (tr : Trace) (id : String) (b : Bool) :
    (indicatorUpdate tr id b).st.missingState = tr.st.missingState ∧
    (indicatorUpdate tr id b).st.disableAdapter = tr.st.disableAdapter ∧
    (indicatorUpdate tr id b).st.timerArmed = tr.st.timerArmed ∧
    (indicatorUpdate tr id b).st.hpin = tr.st.hpin ∧
    (indicatorUpdate tr id b).st.noOfConnectionErrors = tr.st.noOfConnectionErrors ∧
    (indicatorUpdate tr id b).st.host.objects = tr.st.host.objects ∧
    (indicatorUpdate tr id b).st.host.failing = tr.st.host.failing ∧
    (indicatorUpdate tr id b).st.hw_version = tr.st.hw_version ∧
    (indicatorUpdate tr id b).st.sw_version = tr.st.sw_version ∧
    countGets (indicatorUpdate tr id b).events = countGets tr.events ∧
    countPosts (indicatorUpdate tr id b).events = countPosts tr.events := by
  unfold indicatorUpdate
  rcases h : alGet tr.st.host.states id with _ | w
  · simp [h, doSetState, countGets_append, countPosts_append, countGets, countPosts]
  · simp only [h]
    split <;> simp [doSetState, countGets_append, countPosts_append, countGets, countPosts]

/-- The changed-only write discipline of an indicator: a publish happens
exactly when the stored value differs from the written one. -/
theorem indicatorUpdate_pubs (tr : Trace) (id : String) (b : Bool) :
    pubsOf (indicatorUpdate tr id b).events =
      pubsOf tr.events ++
        (if alGet tr.st.host.states id = some (JVal.bool b) then [] else [(id, JVal.bool b)]) := by
  unfold indicatorUpdate
  rcases h : alGet tr.st.host.states id with _ | w
  · simp [doSetState, pubsOf_append, pubsOf, h]
  · by_cases hw : w = JVal.bool b
    · subst hw
      simp [h]
    · simp [doSetState, pubsOf_append, pubsOf, h, hw]

theorem indicatorUpdate_states_ne (tr : Trace) (id : String) (b : Bool) (m : String)
    (h : id ≠ m) :
    alGet (indicatorUpdate tr id b).st.host.states m = alGet tr.st.host.states m := by
  unfold indicatorUpdate
  rcases h2 : alGet tr.st.host.states id with _ | w
  · simp [h2, doSetState, alGet_alSet_ne _ _ _ _ h]
  · simp only [h2]
    split <;> simp [doSetState, alGet_alSet_ne _ _ _ _ h]

theorem updateConnectionStatus_missing (env : Env) (tr : Trace) :
    (updateConnectionStatus env tr).st.missingState = tr.st.missingState := by
  unfold updateConnectionStatus
  rw [(indicatorUpdate_fields _ _ _).1, (indicatorUpdate_fields _ _ _).1]
  split
  · simp [doSetState, (comboCheck_fields env tr).2.1]
  · rw [(indicatorUpdate_fields _ _ _).1, (comboCheck_fields env tr).2.1]

theorem updateConnectionStatus_timer (env : Env) (tr : Trace) :
    (updateConnectionStatus env tr).st.timerArmed = tr.st.timerArmed := by
  unfold updateConnectionStatus
  rw [(indicatorUpdate_fields _ _ _).2.2.1, (indicatorUpdate_fields _ _ _).2.2.1]
  split
  · simp [doSetState, (comboCheck_fields env tr).2.2.1]
  · rw [(indicatorUpdate_fields _ _ _).2.2.1, (comboCheck_fields env tr).2.2.1]

theorem updateConnectionStatus_hpin (env : Env) (tr : Trace) :
    (updateConnectionStatus env tr).st.hpin = tr.st.hpin := by
  unfold updateConnectionStatus
  rw [(indicatorUpdate_fields _ _ _).2.2.2.1, (indicatorUpdate_fields _ _ _).2.2.2.1]
  split
  · simp [doSetState, (comboCheck_fields env tr).2.2.2.1]
  · rw [(indicatorUpdate_fields _ _ _).2.2.2.1, (comboCheck_fields env tr).2.2.2.1]

theorem updateConnectionStatus_disable (env : Env) (tr : Trace) :
    (updateConnectionStatus env tr).st.disableAdapter
      = (comboCheck env tr).st.disableAdapter := by
  unfold updateConnectionStatus
  rw [(indicatorUpdate_fields _ _ _).2.1, (indicatorUpdate_fields _ _ _).2.1]
  split
  · simp [doSetState]
  · rw [(indicatorUpdate_fields _ _ _).2.1]

theorem updateConnectionStatus_countGets (env : Env) (tr : Trace) :
    countGets (updateConnectionStatus env tr).events = countGets tr.events := by
  unfold updateConnectionStatus
  rw [(indicatorUpdate_fields _ _ _).2.2.2.2.2.2.2.2.2.1,
      (indicatorUpdate_fields _ _ _).2.2.2.2.2.2.2.2.2.1]
  split
  · simp [doSetState, countGets_append, countGets, (comboCheck_fields env tr).2.2.2.2.2.2.1]
  · rw [(indicatorUpdate_fields _ _ _).2.2.2.2.2.2.2.2.2.1,
        (comboCheck_fields env tr).2.2.2.2.2.2.1]

theorem updateConnectionStatus_countPosts (env : Env) (tr : Trace) :
    countPosts (updateConnectionStatus env tr).events = countPosts tr.events := by
  unfold updateConnectionStatus
  rw [(indicatorUpdate_fields _ _ _).2.2.2.2.2.2.2.2.2.2,
      (indicatorUpdate_fields _ _ _).2.2.2.2.2.2.2.2.2.2]
  split
  · simp [doSetState, countPosts_append, countPosts, (comboCheck_fields env tr).2.2.2.2.2.2.2]
  · rw [(indicatorUpdate_fields _ _ _).2.2.2.2.2.2.2.2.2.2,
        (comboCheck_fields env tr).2.2.2.2.2.2.2]

/-- Publish behavior of the health-indicator phase: the connection indicator
is written unconditionally (to false) whenever the adapter is disabled after
the combination check, and otherwise only on change; the missing-state and
terminated indicators are written only on change. -/
theorem updateConnectionStatus_pubs (env : Env) (tr : Trace) :
    pubsOf (updateConnectionStatus env tr).events =
      pubsOf tr.events ++
        (if (comboCheck env tr).st.disableAdapter
         then [("info.connection", JVal.bool false)]
         else if alGet tr.st.host.states "info.connection"
             = some (JVal.bool (tr.st.noOfConnectionErrors = 0)) then []
           else [("info.connection", JVal.bool (tr.st.noOfConnectionErrors = 0))]) ++
        (if alGet tr.st.host.states "info.missing_state" = some (JVal.bool tr.st.missingState)
         then [] else [("info.missing_state", JVal.bool tr.st.missingState)]) ++
        (if alGet tr.st.host.states "info.terminated"
            = some (JVal.bool (comboCheck env tr).st.disableAdapter)
         then [] else [("info.terminated", JVal.bool (comboCheck env tr).st.disableAdapter)]) := by
  unfold updateConnectionStatus
  split
  · rename_i hd
    simp only [if_pos hd]
    rw [indicatorUpdate_pubs, indicatorUpdate_pubs]
    rw [indicatorUpdate_states_ne _ _ _ _ (by decide : "info.missing_state" ≠ "info.terminated")]
    simp only [doSetState, pubsOf_append]
    rw [(comboCheck_fields env tr).2.1, (comboCheck_fields env tr).2.2.2.2.2.1,
        (comboCheck_fields env tr).1]
    rw [alGet_alSet_ne _ _ _ _ (by decide : "info.connection" ≠ "info.missing_state"),
        alGet_alSet_ne _ _ _ _ (by decide : "info.connection" ≠ "info.terminated")]
    rw [(indicatorUpdate_fields _ _ _).2.1]
    simp [hd, pubsOf, List.append_assoc]
  · rename_i hd
    simp only [if_neg hd]
    rw [indicatorUpdate_pubs, indicatorUpdate_pubs, indicatorUpdate_pubs]
    rw [(indicatorUpdate_fields _ _ _).2.1, (indicatorUpdate_fields _ _ _).2.1,
        (indicatorUpdate_fields _ _ _).1,
        indicatorUpdate_states_ne _ _ _ _ (by decide : "info.missing_state" ≠ "info.terminated"),
        indicatorUpdate_states_ne _ _ _ _ (by decide : "info.connection" ≠ "info.terminated"),
        indicatorUpdate_states_ne _ _ _ _ (by decide : "info.connection" ≠ "info.missing_state")]
    rw [(comboCheck_fields env tr).2.1, (comboCheck_fields env tr).1,
        (comboCheck_fields env tr).2.2.2.2.1, (comboCheck_fields env tr).2.2.2.2.2.1]

/-- The nonce fast-path only touches the cached nonce, its timestamp and the
session secret, and only ever appends a warning to the trace. -/
theorem pollNonceUpdate_shape (env : Env) (now : Int) (result : JVal) (tr : Trace) :
    ∃ nn ts hs evs,
      pollNonceUpdate env now result tr
        = { st := { tr.st with nonce := nn, nonceTimestamp := ts, hspin := hs }
            events := tr.events ++ evs } ∧
      visitsOf evs = [] ∧ pubsOf evs = [] ∧ countGets evs = 0 ∧ countPosts evs = 0 := by
  unfold pollNonceUpdate
  dsimp only
  rcases h1 : jvGet result "meta" with _ | m
  · exact ⟨tr.st.nonce, tr.st.nonceTimestamp, tr.st.hspin,
      [Ev.warnLog "Nonce not found in the response"], by simp, by simp [visitsOf],
      by simp [pubsOf], by simp [countGets], by simp [countPosts]⟩
  · by_cases ht : jvalTruthy m = true
    · simp only [ht, if_true]
      rcases h2 : jvGet m "nonce" with _ | nv
      · exact ⟨tr.st.nonce, tr.st.nonceTimestamp, tr.st.hspin,
          [Ev.warnLog "Nonce not found in the response"], by simp, by simp [visitsOf],
          by simp [pubsOf], by simp [countGets], by simp [countPosts]⟩
      · by_cases htv : jvalTruthy nv = true
        · simp only [htv, if_true]
          by_cases hne : tr.st.nonce ≠ some nv
          · simp only [if_pos hne]
            exact ⟨some nv, now, some (calculateHSPIN env.md5h nv tr.st.hpin), [],
              by simp, by simp [visitsOf], by simp [pubsOf], by simp [countGets],
              by simp [countPosts]⟩
          · simp only [if_neg hne]
            exact ⟨tr.st.nonce, tr.st.nonceTimestamp, tr.st.hspin, [], by simp,
              by simp [visitsOf], by simp [pubsOf], by simp [countGets], by simp [countPosts]⟩
        · simp only [htv, if_false]
          exact ⟨tr.st.nonce, tr.st.nonceTimestamp, tr.st.hspin,
            [Ev.warnLog "Nonce not found in the response"], by simp, by simp [visitsOf],
            by simp [pubsOf], by simp [countGets], by simp [countPosts]⟩
    · simp only [ht, if_false]
      exact ⟨tr.st.nonce, tr.st.nonceTimestamp, tr.st.hspin,
        [Ev.warnLog "Nonce not found in the response"], by simp, by simp [visitsOf],
        by simp [pubsOf], by simp [countGets], by simp [countPosts]⟩

theorem pollDeviceStatus_missing_mono (env : Env) (tr : Trace) (inp : PollInput)
    (h : tr.st.missingState = true) :
    (pollDeviceStatus env tr inp).st.missingState = true := by
  unfold pollDeviceStatus
  dsimp only
  split <;>
  · rw [updateConnectionStatus_missing]
    rcases inp.response with _ | ⟨status, result⟩
    · simpa using h
    · by_cases hs : status = 200
      · simp only [if_pos hs]
        cases result
        case _ => simpa using h
        all_goals
          (apply syncState_missing_mono
           obtain ⟨nn, ts, hsn, evs, heq, _, _, _, _⟩ := pollNonceUpdate_shape env inp.now _ _
           rw [heq]
           simpa using h)
      · simp only [if_neg hs]
        simpa using h

theorem pollDeviceStatus_disable_mono (env : Env) (tr : Trace) (inp : PollInput)
    (h : tr.st.disableAdapter = true) :
    (pollDeviceStatus env tr inp).st.disableAdapter = true := by
  unfold pollDeviceStatus
  dsimp only
  split <;>
  · rw [updateConnectionStatus_disable]
    apply comboCheck_disable_mono
    rcases inp.response with _ | ⟨status, result⟩
    · simpa using h
    · by_cases hs : status = 200
      · simp only [if_pos hs]
        cases result
        case _ => simpa using h
        all_goals
          (apply syncState_disable_mono
           obtain ⟨nn, ts, hsn, evs, heq, _, _, _, _⟩ := pollNonceUpdate_shape env inp.now _ _
           rw [heq]
           simpa using h)
      · simp only [if_neg hs]
        simpa using h

theorem pollDeviceStatus_hpin (env : Env) (tr : Trace) (inp : PollInput) :
    (pollDeviceStatus env tr inp).st.hpin = tr.st.hpin := by
  unfold pollDeviceStatus
  dsimp only
  split <;>
  · rw [updateConnectionStatus_hpin]
    rcases inp.response with _ | ⟨status, result⟩
    · simp
    · by_cases hs : status = 200
      · simp only [if_pos hs]
        cases result
        case _ => simp
        all_goals
          (rw [syncState_hpin]
           obtain ⟨nn, ts, hsn, evs, heq, _, _, _, _⟩ := pollNonceUpdate_shape env inp.now _ _
           rw [heq])
      · simp only [if_neg hs]

theorem pollDeviceStatus_countGets (env : Env) (tr : Trace) (inp : PollInput) :
    countGets (pollDeviceStatus env tr inp).events = countGets tr.events + 1 := by
  unfold pollDeviceStatus
  dsimp only
  split <;>
  · rw [updateConnectionStatus_countGets]
    rcases inp.response with _ | ⟨status, result⟩
    · simp [countGets_append, countGets]
    · by_cases hs : status = 200
      · simp only [if_pos hs]
        cases result
        case _ => simp [countGets_append, countGets]
        all_goals
          (rw [syncState_countGets]
           obtain ⟨nn, ts, hsn, evs, heq, _, _, hg, _⟩ := pollNonceUpdate_shape env inp.now _ _
           rw [heq]
           dsimp only
           rw [countGets_append, countGets_append, hg]
           simp [countGets])
      · simp only [if_neg hs]
        simp [countGets_append, countGets]

/-- After a poll cycle the timer is re-armed exactly when the adapter is not
disabled. -/
theorem pollDeviceStatus_timer (env : Env) (tr : Trace) (inp : PollInput) :
    (pollDeviceStatus env tr inp).st.timerArmed
      = !(pollDeviceStatus env tr inp).st.disableAdapter := by
  unfold pollDeviceStatus
  dsimp only
  split
  · rename_i hcond
    dsimp only
    exact hcond.symm
  · rename_i hcond
    simp only [Bool.not_eq_true, Bool.not_eq_false] at hcond
    rw [updateConnectionStatus_timer, hcond]
    rcases inp.response with _ | ⟨status, result⟩
    · rfl
    · by_cases hs : status = 200
      · simp only [if_pos hs]
        cases result
        case _ => rfl
        all_goals
          (rw [syncState_timer]
           obtain ⟨nn, ts, hsn, evs, heq, _, _, _, _⟩ := pollNonceUpdate_shape env inp.now _ _
           rw [heq])
      · simp only [if_neg hs]

theorem str_append_right_ne (s t u : String) (h : t ≠ u) : s ++ t ≠ s ++ u := by
  intro heq
  apply h
  have hd := congrArg String.data heq
  rw [String.data_append, String.data_append] at hd
  exact String.ext (List.append_cancel_left hd)

theorem validateAndRefreshNonce_disable_mono (env : Env) (tr : Trace) (inp : PollInput)
    (h : tr.st.disableAdapter = true) :
    (validateAndRefreshNonce env tr inp).st.disableAdapter = true := by
  unfold validateAndRefreshNonce
  split
  · exact pollDeviceStatus_disable_mono env tr inp h
  · exact h

theorem validateAndRefreshNonce_hpin (env : Env) (tr : Trace) (inp : PollInput) :
    (validateAndRefreshNonce env tr inp).st.hpin = tr.st.hpin := by
  unfold validateAndRefreshNonce
  split
  · exact pollDeviceStatus_hpin env tr inp
  · rfl

theorem validateAndRefreshNonce_missing_mono (env : Env) (tr : Trace) (inp : PollInput)
    (h : tr.st.missingState = true) :
    (validateAndRefreshNonce env tr inp).st.missingState = true := by
  unfold validateAndRefreshNonce
  split
  · exact pollDeviceStatus_missing_mono env tr inp h
  · exact h

/-- The state part of `makeAuthenticatedRequest` is the state after the
conditional nonce refresh; the request itself at most appends the POST event. -/
theorem makeAuthenticatedRequest_shape (env : Env) (tr : Trace) (inp : PollInput)
    (url : String) (data : JVal) (resp : Option (Nat × JVal)) :
    ∃ evs, (makeAuthenticatedRequest env tr inp url data resp).1
        = { st := (validateAndRefreshNonce env tr inp).st
            events := (validateAndRefreshNonce env tr inp).events ++ evs } ∧
      pubsOf evs = [] ∧ countGets evs = 0 := by
  unfold makeAuthenticatedRequest
  dsimp only
  rcases h : createHeader env.cfg (validateAndRefreshNonce env tr inp).st.hspin data with e | hdr
  · refine ⟨[], ?_, rfl, rfl⟩
    simp
  · rcases resp with _ | r <;>
      exact ⟨[Ev.httpPost url data hdr], rfl, rfl, rfl⟩

theorem dispatchCommand_disable_mono (env : Env) (tr : Trace) (pd : JVal) (ack : String)
    (cv : JVal) (r1 r2 : PollInput) (pr : Option (Nat × JVal))
    (h : tr.st.disableAdapter = true) :
    (dispatchCommand env tr pd ack cv r1 r2 pr).st.disableAdapter = true := by
  rcases hM : makeAuthenticatedRequest env tr r1
    ("http://" ++ env.cfg.fireplaceAddress ++ "/status.cgi") pd pr with ⟨tr1, res⟩
  have htr1 : tr1.st.disableAdapter = true := by
    obtain ⟨evs, heq, _, _⟩ := makeAuthenticatedRequest_shape env tr r1
      ("http://" ++ env.cfg.fireplaceAddress ++ "/status.cgi") pd pr
    have : tr1 = (makeAuthenticatedRequest env tr r1
        ("http://" ++ env.cfg.fireplaceAddress ++ "/status.cgi") pd pr).1 := by rw [hM]
    rw [this, heq]
    exact validateAndRefreshNonce_disable_mono env tr r1 h
  unfold dispatchCommand
  dsimp only
  rw [hM]
  apply pollDeviceStatus_disable_mono
  rcases res with e | ⟨status, body⟩
  · simpa using htr1
  · by_cases hs : status = 200
    · simp only [if_pos hs]
      split
      · simpa using htr1
      · simpa [doSetState] using htr1
    · simp only [if_neg hs]
      simpa using htr1

theorem dispatchCommand_hpin (env : Env) (tr : Trace) (pd : JVal) (ack : String)
    (cv : JVal) (r1 r2 : PollInput) (pr : Option (Nat × JVal)) :
    (dispatchCommand env tr pd ack cv r1 r2 pr).st.hpin = tr.st.hpin := by
  rcases hM : makeAuthenticatedRequest env tr r1
    ("http://" ++ env.cfg.fireplaceAddress ++ "/status.cgi") pd pr with ⟨tr1, res⟩
  have htr1 : tr1.st.hpin = tr.st.hpin := by
    obtain ⟨evs, heq, _, _⟩ := makeAuthenticatedRequest_shape env tr r1
      ("http://" ++ env.cfg.fireplaceAddress ++ "/status.cgi") pd pr
    have : tr1 = (makeAuthenticatedRequest env tr r1
        ("http://" ++ env.cfg.fireplaceAddress ++ "/status.cgi") pd pr).1 := by rw [hM]
    rw [this, heq]
    exact validateAndRefreshNonce_hpin env tr r1
  unfold dispatchCommand
  dsimp only
  rw [hM]
  rw [pollDeviceStatus_hpin]
  rcases res with e | ⟨status, body⟩
  · simpa using htr1
  · by_cases hs : status = 200
    · simp only [if_pos hs]
      split
      · simpa using htr1
      · simpa [doSetState] using htr1
    · simp only [if_neg hs]
      simpa using htr1

theorem handleStateChange_disable_mono (env : Env) (tr : Trace) (id : String)
    (state : Option InState) (r1 r2 : PollInput) (pr : Option (Nat × JVal))
    (h : tr.st.disableAdapter = true) :
    (handleStateChange env tr id state r1 r2 pr).st.disableAdapter = true := by
  unfold handleStateChange
  rcases state with _ | s
  · exact h
  · by_cases ha : s.ack = true
    · simpa [ha] using h
    · have ha' : s.ack = false := by revert ha; cases s.ack <;> simp
      simp only [ha', Bool.false_eq_true, if_false]
      split
      · exact dispatchCommand_disable_mono env tr _ _ _ r1 r2 pr h
      · split
        · exact dispatchCommand_disable_mono env tr _ _ _ r1 r2 pr h
        · split
          · split
            · exact h
            · split
              · exact dispatchCommand_disable_mono env tr _ _ _ r1 r2 pr h
              · exact h
          · exact h

theorem handleStateChange_hpin (env : Env) (tr : Trace) (id : String)
    (state : Option InState) (r1 r2 : PollInput) (pr : Option (Nat × JVal)) :
    (handleStateChange env tr id state r1 r2 pr).st.hpin = tr.st.hpin := by
  unfold handleStateChange
  rcases state with _ | s
  · rfl
  · by_cases ha : s.ack = true
    · simp [ha]
    · have ha' : s.ack = false := by revert ha; cases s.ack <;> simp
      simp only [ha', Bool.false_eq_true, if_false]
      split
      · exact dispatchCommand_hpin env tr _ _ _ r1 r2 pr
      · split
        · exact dispatchCommand_hpin env tr _ _ _ r1 r2 pr
        · split
          · split
            · rfl
            · split
              · exact dispatchCommand_hpin env tr _ _ _ r1 r2 pr
              · rfl
          · rfl

/-- A host I/O failure while processing a leaf disables the adapter. -/
theorem syncLeaf_fail (env : Env) (now : Int) (path key : String) (value : JVal) (tr : Trace)
    (h : stateNameOf path key ∈ tr.st.host.failing) :
    (syncLeaf env now path key value tr).st.disableAdapter = true := by
  unfold syncLeaf
  dsimp only
  rw [if_pos (by simpa using h)]
  simp [markSyncError]

theorem updateConnectionStatus_unsupported (env : Env) (tr : Trace) (hw sw : JVal)
    (hhw : tr.st.hw_version = some hw) (hsw : tr.st.sw_version = some sw)
    (hbad : alGet env.cfg.supportedHwSwVersions (jsToString hw ++ "_" ++ jsToString sw)
      ≠ some true) :
    (updateConnectionStatus env tr).st.disableAdapter = true := by
  rw [updateConnectionStatus_disable]
  exact comboCheck_unsupported env tr hw sw hhw hsw hbad

/-- Claim C1: for every call to the nonce-freshness check
(`validateAndRefreshNonce`), a status poll is triggered if and only if the
cached nonce is unset or the current time minus the nonce's last-update
timestamp exceeds the fixed expiry window of 3600000 ms; in all other cases
no network call occurs (the state and trace are completely unchanged).  The
cached nonce, when set, comes from a truthiness-guarded device response, so
it is assumed truthy. -/
theorem claim_C1_nonce_freshness (env : Env) (tr : Trace) (inp : PollInput)
    (hwf : tr.st.nonce = none ∨ ∃ v, tr.st.nonce = some v ∧ jvalTruthy v = true) :
    (countGets (validateAndRefreshNonce env tr inp).events = countGets tr.events + 1
      ↔ (tr.st.nonce = none ∨ inp.now - tr.st.nonceTimestamp > nonceExpiryTime)) ∧
    ((tr.st.nonce ≠ none ∧ ¬(inp.now - tr.st.nonceTimestamp > nonceExpiryTime)) →
      validateAndRefreshNonce env tr inp = tr) := by
  unfold validateAndRefreshNonce shouldRefreshNonce
  rcases hwf with hn | ⟨v, hn, hv⟩
  · rw [hn]
    simp only [jvalTruthyOpt, Bool.not_false, Bool.true_or, if_true]
    constructor
    · rw [pollDeviceStatus_countGets]
      simp [hn]
    · intro hc
      exact absurd rfl hc.1
  · rw [hn]
    simp only [jvalTruthyOpt, hv, Bool.not_true, Bool.false_or]
    by_cases hexp : inp.now - tr.st.nonceTimestamp > nonceExpiryTime
    · rw [if_pos (by simpa using hexp)]
      constructor
      · rw [pollDeviceStatus_countGets]
        simp [hexp]
      · intro hc
        exact absurd hexp hc.2
    · rw [if_neg (by simpa using hexp)]
      constructor
      · constructor
        · intro habs
          exact absurd habs (by omega)
        · intro hor
          rcases hor with h1 | h2
          · simp at h1
          · exact absurd h2 hexp
      · intro _
        rfl

theorem claim_C1_witness :
    (countGets (validateAndRefreshNonce env0 (initialTrace env0 host0) inp0).events
      = countGets (initialTrace env0 host0).events + 1
      ↔ ((initialTrace env0 host0).st.nonce = none
          ∨ inp0.now - (initialTrace env0 host0).st.nonceTimestamp > nonceExpiryTime)) ∧
    (((initialTrace env0 host0).st.nonce ≠ none
        ∧ ¬(inp0.now - (initialTrace env0 host0).st.nonceTimestamp > nonceExpiryTime)) →
      validateAndRefreshNonce env0 (initialTrace env0 host0) inp0 = initialTrace env0 host0) :=
  claim_C1_nonce_freshness env0 (initialTrace env0 host0) inp0 (Or.inl (by decide))

/-- Claim C3: on the document with a = (b = 1, c = [1,2]) and empty path
prefix, the synchronizer visits exactly the flat points device.a.b (raw
value 1) and device.a.c (raw value [1,2], published as the canonical string
"[1,2]") and never visits device.a itself; in general the visited leaves are
exactly the declarative flattening, which recurses into nested non-array
mappings and joins "device" with the path segments using ".". -/
theorem claim_C3_flattening :
    (visitsOf (syncState env0 0 doc3 "" (initialTrace env0 host3)).events
        = [("device.a.b", JVal.num 1), ("device.a.c", JVal.arr [JVal.num 1, JVal.num 2])] ∧
      pubsOf (syncState env0 0 doc3 "" (initialTrace env0 host3)).events
        = [("device.a.b", JVal.num 1), ("device.a.c", JVal.str "[1,2]")] ∧
      "device.a" ∉ (visitsOf (syncState env0 0 doc3 "" (initialTrace env0 host3)).events).map
        Prod.fst) ∧
    (∀ env now v path tr,
      visitsOf (syncState env now v path tr).events = visitsOf tr.events ++ flattenNode v path) := by
  refine ⟨⟨by decide, by decide, by decide⟩, ?_⟩
  intro env now v path tr
  exact syncState_visits env now v path tr

/-- Claim C4: running the synchronizer twice with an identical document (all
host objects present, host storage healthy, distinct flat names, stored
values initially differing from the reported ones) publishes the coerced
value exactly once per leaf point on the first run and publishes nothing on
the second run. -/
theorem claim_C4_idempotence (env : Env) (now now2 : Int) (doc : JVal) (tr : Trace)
    (hfail : tr.st.host.failing = [])
    (hnodup : ((flattenNode doc "").map Prod.fst).Nodup)
    (hpres : ∀ p ∈ flattenNode doc "", (alGet tr.st.host.objects p.1).isSome = true)
    (hfresh : ∀ p ∈ flattenNode doc "", alGet tr.st.host.states p.1 ≠ some (coerceForStore p.2)) :
    pubsOf (syncState env now doc "" tr).events
      = pubsOf tr.events ++ (flattenNode doc "").map (fun p => (p.1, coerceForStore p.2)) ∧
    pubsOf (syncState env now2 doc "" (syncState env now doc "" tr)).events
      = pubsOf (syncState env now doc "" tr).events := by
  have h1 := (sync_pubs_aux env now (sizeOf doc)).1 doc "" tr le_rfl hfail hnodup hpres
  constructor
  · rw [h1.1]
    have hfull : (flattenNode doc "").filter (staleLeaf tr.st.host.states) = flattenNode doc "" :=
      List.filter_eq_self.mpr (fun p hp => by
        simp only [staleLeaf, decide_eq_true_eq]
        exact hfresh p hp)
    rw [hfull]
  · have h2 := (sync_pubs_aux env now2 (sizeOf doc)).1 doc "" (syncState env now doc "" tr)
      le_rfl h1.2.2.2.2 hnodup (fun p hp => by
        rw [h1.2.2.2.1 p.1]
        exact hpres p hp)
    rw [h2.1]
    have hnil : (flattenNode doc "").filter
        (staleLeaf (syncState env now doc "" tr).st.host.states) = [] := by
      apply List.filter_eq_nil_iff.mpr
      intro p hp
      simp only [staleLeaf, decide_eq_true_eq, not_not]
      exact h1.2.1 p hp
    rw [hnil]
    simp

theorem claim_C4_witness :
    pubsOf (syncState env0 0 doc3 "" (initialTrace env0 host3)).events
      = pubsOf (initialTrace env0 host3).events
          ++ (flattenNode doc3 "").map (fun p => (p.1, coerceForStore p.2)) ∧
    pubsOf (syncState env0 1 doc3 "" (syncState env0 0 doc3 "" (initialTrace env0 host3))).events
      = pubsOf (syncState env0 0 doc3 "" (initialTrace env0 host3)).events :=
  claim_C4_idempotence env0 0 1 doc3 (initialTrace env0 host3) (by decide) (by decide)
    (by decide) (by decide)

/-- Claim C5: the disabled flag is a one-way state machine: it starts false,
is set on an unsupported hardware/software combination and on a host I/O
failure during sync, no operation resets it, and a disabled adapter never
re-arms the poll timer. -/
theorem claim_C5_disable_one_way (env : Env) (host : Host) :
    ((initialTrace env host).st.disableAdapter = false) ∧
    (∀ tr inp, tr.st.disableAdapter = true →
      (pollDeviceStatus env tr inp).st.disableAdapter = true) ∧
    (∀ tr id state r1 r2 pr, tr.st.disableAdapter = true →
      (handleStateChange env tr id state r1 r2 pr).st.disableAdapter = true) ∧
    (∀ tr hw sw, tr.st.hw_version = some hw → tr.st.sw_version = some sw →
      alGet env.cfg.supportedHwSwVersions (jsToString hw ++ "_" ++ jsToString sw) ≠ some true →
      (updateConnectionStatus env tr).st.disableAdapter = true) ∧
    (∀ now path key value tr, stateNameOf path key ∈ tr.st.host.failing →
      (syncLeaf env now path key value tr).st.disableAdapter = true) ∧
    (∀ tr inp, (pollDeviceStatus env tr inp).st.disableAdapter = true →
      (pollDeviceStatus env tr inp).st.timerArmed = false) := by
  refine ⟨rfl, ?_, ?_, ?_, ?_, ?_⟩
  · exact fun tr inp h => pollDeviceStatus_disable_mono env tr inp h
  · exact fun tr id state r1 r2 pr h => handleStateChange_disable_mono env tr id state r1 r2 pr h
  · exact fun tr hw sw hhw hsw hbad => updateConnectionStatus_unsupported env tr hw sw hhw hsw hbad
  · exact fun now path key value tr h => syncLeaf_fail env now path key value tr h
  · intro tr inp h
    rw [pollDeviceStatus_timer, h]
    rfl

theorem claim_C5_witness :
    (initialTrace env0 host0).st.disableAdapter = false ∧
    (pollDeviceStatus env0 trDis inp0).st.disableAdapter = true ∧
    (updateConnectionStatus env0 trHw).st.disableAdapter = true ∧
    (syncLeaf env0 0 "" "x" (JVal.num 1) trFailX).st.disableAdapter = true ∧
    (pollDeviceStatus env0 trDis inp0).st.timerArmed = false :=
  ⟨(claim_C5_disable_one_way env0 host0).1,
   (claim_C5_disable_one_way env0 host0).2.1 trDis inp0 (by decide),
   (claim_C5_disable_one_way env0 host0).2.2.2.1 trHw (JVal.str "1.0") (JVal.str "V9")
     (by decide) (by decide) (by decide),
   (claim_C5_disable_one_way env0 host0).2.2.2.2.1 0 "" "x" (JVal.num 1) trFailX (by decide),
   (claim_C5_disable_one_way env0 host0).2.2.2.2.2 trDis inp0
     ((claim_C5_disable_one_way env0 host0).2.1 trDis inp0 (by decide))⟩

/-- Claim C6: when the host object of a leaf point is missing during sync,
the sticky missing-state flag becomes true, the point is not created (its
object stays absent) and nothing is published for it; the flag stays true
across any further synchronizer run or poll cycle. -/
theorem claim_C6_missing_sticky (env : Env) (now : Int) (x y : String) (v : JVal) (tr : Trace)
    (hscalar : isRecurseNode v = false)
    (hmiss : alGet tr.st.host.objects (stateNameOf x y) = none)
    (hnofail : stateNameOf x y ∉ tr.st.host.failing) :
    ((syncState env now (JVal.obj [(x, JVal.obj [(y, v)])]) "" tr).st.missingState = true) ∧
    (alGet (syncState env now (JVal.obj [(x, JVal.obj [(y, v)])]) "" tr).st.host.objects
        (stateNameOf x y) = none) ∧
    (pubsOf (syncState env now (JVal.obj [(x, JVal.obj [(y, v)])]) "" tr).events
        = pubsOf tr.events) ∧
    (∀ inp, (pollDeviceStatus env
        (syncState env now (JVal.obj [(x, JVal.obj [(y, v)])]) "" tr) inp).st.missingState
          = true) ∧
    (∀ doc path tr2, tr2.st.missingState = true →
      (syncState env now doc path tr2).st.missingState = true) := by
  have hred : syncState env now (JVal.obj [(x, JVal.obj [(y, v)])]) "" tr
      = syncLeaf env now x y v tr := by
    have hobj : isRecurseNode (JVal.obj [(y, v)]) = true := rfl
    simp [syncState, syncFields, hobj, hscalar, joinPath]
  have hleaf : (syncLeaf env now x y v tr).st.missingState = true ∧
      alGet (syncLeaf env now x y v tr).st.host.objects (stateNameOf x y) = none ∧
      pubsOf (syncLeaf env now x y v tr).events = pubsOf tr.events := by
    unfold syncLeaf
    dsimp only
    rw [if_neg (by simpa using hnofail)]
    simp only [hmiss]
    refine ⟨?_, ?_, ?_⟩
    · rw [(ecoIntercept_flags _ _ _).1]
      simp [syncLeafMissing]
    · apply ecoIntercept_objAbsent
      simpa [syncLeafMissing] using hmiss
    · rw [(ecoIntercept_trace _ _ _).2.1]
      simp [syncLeafMissing, pubsOf_append, pubsOf]
  rw [hred]
  refine ⟨hleaf.1, hleaf.2.1, hleaf.2.2, ?_, ?_⟩
  · intro inp
    exact pollDeviceStatus_missing_mono env _ inp hleaf.1
  · intro doc path tr2 h2
    exact syncState_missing_mono env now doc path tr2 h2

theorem claim_C6_witness :
    ((syncState env0 0 (JVal.obj [("x", JVal.obj [("y", JVal.num 1)])]) ""
        (initialTrace env0 host0)).st.missingState = true) ∧
    (alGet (syncState env0 0 (JVal.obj [("x", JVal.obj [("y", JVal.num 1)])]) ""
        (initialTrace env0 host0)).st.host.objects (stateNameOf "x" "y") = none) ∧
    (pubsOf (syncState env0 0 (JVal.obj [("x", JVal.obj [("y", JVal.num 1)])]) ""
        (initialTrace env0 host0)).events = pubsOf (initialTrace env0 host0).events) ∧
    ((pollDeviceStatus env0
        (syncState env0 0 (JVal.obj [("x", JVal.obj [("y", JVal.num 1)])]) ""
          (initialTrace env0 host0)) inp0).st.missingState = true) ∧
    ((syncState env0 0 (JVal.num 7) ""
        (syncState env0 0 (JVal.obj [("x", JVal.obj [("y", JVal.num 1)])]) ""
          (initialTrace env0 host0))).st.missingState = true) :=
  have h := claim_C6_missing_sticky env0 0 "x" "y" (JVal.num 1) (initialTrace env0 host0)
    (by decide) (by decide) (by decide)
  ⟨h.1, h.2.1, h.2.2.1, h.2.2.2.1 inp0, h.2.2.2.2 (JVal.num 7) "" _ h.1⟩

/-- Claim C7 (counterexample): with the adapter disabled and the connection
indicator already storing false, the indicator phase still publishes
info.connection = false — a host write although the value is unchanged,
contradicting the claim that an unchanged indicator is never written. -/
theorem claim_C7_counterexample :
    trC7.st.disableAdapter = true ∧
    alGet trC7.st.host.states "info.connection" = some (JVal.bool false) ∧
    pubsOf (updateConnectionStatus env0 trC7).events
      = [("info.connection", JVal.bool false)] := by
  refine ⟨by decide, by decide, by decide⟩

/-- Claim C7 (amended): after each poll cycle the missing-state and
terminated indicators are written only when their value differs from the
stored one, and so is the connection indicator while the adapter is not
disabled; when the adapter is disabled the connection indicator is written
false unconditionally. -/
theorem claim_C7_changed_only_writes (env : Env) (tr : Trace) :
    pubsOf (updateConnectionStatus env tr).events =
      pubsOf tr.events ++
        (if (comboCheck env tr).st.disableAdapter
         then [("info.connection", JVal.bool false)]
         else if alGet tr.st.host.states "info.connection"
             = some (JVal.bool (tr.st.noOfConnectionErrors = 0)) then []
           else [("info.connection", JVal.bool (tr.st.noOfConnectionErrors = 0))]) ++
        (if alGet tr.st.host.states "info.missing_state" = some (JVal.bool tr.st.missingState)
         then [] else [("info.missing_state", JVal.bool tr.st.missingState)]) ++
        (if alGet tr.st.host.states "info.terminated"
            = some (JVal.bool (comboCheck env tr).st.disableAdapter)
         then [] else [("info.terminated", JVal.bool (comboCheck env tr).st.disableAdapter)]) :=
  updateConnectionStatus_pubs env tr

/-- Claim C8: an eco-mode write command arriving while the cached
eco_editable state point is false is dropped with a warning: no POST, no
publish, no poll, and no state change at all. -/
theorem claim_C8_eco_gating (env : Env) (tr : Trace) (s : InState) (r1 r2 : PollInput)
    (pr : Option (Nat × JVal))
    (hack : s.ack = false)
    (hval : alGet tr.st.host.states "device.meta.eco_editable" = some (JVal.bool false))
    (hnofail : "device.meta.eco_editable" ∉ tr.st.host.failing) :
    handleStateChange env tr (env.cfg.adapterNamespace ++ ".device.eco_mode") (some s) r1 r2 pr
      = { tr with events := tr.events
          ++ [Ev.warnLog "Eco mode is not editable. Ignoring command to change eco mode."] } ∧
    countPosts (handleStateChange env tr (env.cfg.adapterNamespace ++ ".device.eco_mode")
        (some s) r1 r2 pr).events = countPosts tr.events ∧
    pubsOf (handleStateChange env tr (env.cfg.adapterNamespace ++ ".device.eco_mode")
        (some s) r1 r2 pr).events = pubsOf tr.events ∧
    countGets (handleStateChange env tr (env.cfg.adapterNamespace ++ ".device.eco_mode")
        (some s) r1 r2 pr).events = countGets tr.events := by
  have h1 : env.cfg.adapterNamespace ++ ".device.eco_mode"
      ≠ env.cfg.adapterNamespace ++ ".device.prg" :=
    str_append_right_ne _ _ _ (by decide)
  have h2 : env.cfg.adapterNamespace ++ ".device.eco_mode"
      ≠ env.cfg.adapterNamespace ++ ".device.sp_temp" :=
    str_append_right_ne _ _ _ (by decide)
  have hmain : handleStateChange env tr (env.cfg.adapterNamespace ++ ".device.eco_mode")
      (some s) r1 r2 pr
      = { tr with events := tr.events
          ++ [Ev.warnLog "Eco mode is not editable. Ignoring command to change eco mode."] } := by
    unfold handleStateChange
    simp only [hack, Bool.false_eq_true, if_false]
    rw [if_neg h1, if_neg h2]
    simp [hval, hnofail, jvalTruthyOpt, jvalTruthy]
  refine ⟨hmain, ?_, ?_, ?_⟩ <;> rw [hmain] <;>
    simp [countPosts_append, pubsOf_append, countGets_append, countPosts, pubsOf, countGets]

theorem claim_C8_witness :
    handleStateChange env0 trEco ("haassohn.0" ++ ".device.eco_mode")
        (some { val := JVal.bool true, ack := false }) inp0 inp0 none
      = { trEco with events := trEco.events
          ++ [Ev.warnLog "Eco mode is not editable. Ignoring command to change eco mode."] } ∧
    countPosts (handleStateChange env0 trEco ("haassohn.0" ++ ".device.eco_mode")
        (some { val := JVal.bool true, ack := false }) inp0 inp0 none).events
      = countPosts trEco.events ∧
    pubsOf (handleStateChange env0 trEco ("haassohn.0" ++ ".device.eco_mode")
        (some { val := JVal.bool true, ack := false }) inp0 inp0 none).events
      = pubsOf trEco.events ∧
    countGets (handleStateChange env0 trEco ("haassohn.0" ++ ".device.eco_mode")
        (some { val := JVal.bool true, ack := false }) inp0 inp0 none).events
      = countGets trEco.events :=
  claim_C8_eco_gating env0 trEco { val := JVal.bool true, ack := false } inp0 inp0 none
    rfl (by decide) (by decide)

/-- Claim C9: the derived PIN hash is the hash of the PIN, computed once at
startup and never mutated by any operation (stable across calls within a
process lifetime); the session secret is the same hash applied to the
string concatenation of the nonce followed by the derived PIN hash, in that
exact order. -/
theorem claim_C9_hash_chain (env : Env) (host : Host) :
    ((initialTrace env host).st.hpin = env.md5h env.cfg.pin) ∧
    (∀ md5h : String → String, ∀ pin : String, calculateHPIN md5h pin = md5h pin) ∧
    (∀ tr inp, (pollDeviceStatus env tr inp).st.hpin = tr.st.hpin) ∧
    (∀ tr id state r1 r2 pr, (handleStateChange env tr id state r1 r2 pr).st.hpin = tr.st.hpin) ∧
    (∀ md5h : String → String, ∀ n hp, calculateHSPIN md5h n hp
      = calculateHPIN md5h (jsToString n ++ hp)) ∧
    (∀ md5h : String → String, ∀ s hp, calculateHSPIN md5h (JVal.str s) hp = md5h (s ++ hp)) := by
  refine ⟨rfl, fun _ _ => rfl, ?_, ?_, fun _ _ _ => rfl, fun _ _ _ => rfl⟩
  · exact fun tr inp => pollDeviceStatus_hpin env tr inp
  · exact fun tr id state r1 r2 pr => handleStateChange_hpin env tr id state r1 r2 pr

/-- Claim C10: while processing the device.meta.eco_editable leaf, the
writability mutation of the device.eco_mode object (setting its write
capability to the raw, uncoerced reported value) happens even when the host
object for device.meta.eco_editable itself is absent, provided the
device.eco_mode object exists; the missing-state flag is set as usual. -/
theorem claim_C10_eco_writability (env : Env) (now : Int) (v : JVal) (tr : Trace) (o : HostObj)
    (hmiss : alGet tr.st.host.objects "device.meta.eco_editable" = none)
    (hnofail1 : "device.meta.eco_editable" ∉ tr.st.host.failing)
    (hnofail2 : "device.eco_mode" ∉ tr.st.host.failing)
    (hobj : alGet tr.st.host.objects "device.eco_mode" = some o) :
    alGet (syncLeaf env now "meta" "eco_editable" v tr).st.host.objects "device.eco_mode"
      = some { o with write := v } ∧
    (Ev.setObject "device.eco_mode" { o with write := v })
      ∈ (syncLeaf env now "meta" "eco_editable" v tr).events ∧
    (syncLeaf env now "meta" "eco_editable" v tr).st.missingState = true := by
  have hsn : stateNameOf "meta" "eco_editable" = "device.meta.eco_editable" := rfl
  unfold syncLeaf
  dsimp only
  rw [hsn]
  rw [if_neg (by simpa using hnofail1)]
  simp only [hmiss]
  unfold ecoIntercept
  rw [if_pos rfl]
  rw [if_neg (by simpa [syncLeafMissing] using hnofail2)]
  have hobjs : ∀ sn tr2, (syncLeafMissing sn tr2).st.host.objects = tr2.st.host.objects :=
    fun _ _ => rfl
  rw [hobjs]
  simp only [hobj]
  refine ⟨?_, ?_, ?_⟩
  · simp [doSetObject, alGet_alSet_eq]
  · simp [doSetObject, syncLeafMissing]
  · simp [doSetObject, syncLeafMissing]

theorem claim_C10_witness :
    alGet (syncLeaf env0 0 "meta" "eco_editable" (JVal.bool true) trEcoObj).st.host.objects
        "device.eco_mode" = some { write := JVal.bool true } ∧
    (Ev.setObject "device.eco_mode" { write := JVal.bool true })
      ∈ (syncLeaf env0 0 "meta" "eco_editable" (JVal.bool true) trEcoObj).events ∧
    (syncLeaf env0 0 "meta" "eco_editable" (JVal.bool true) trEcoObj).st.missingState = true :=
  claim_C10_eco_writability env0 0 (JVal.bool true) trEcoObj { write := JVal.bool false }
    (by decide) (by decide) (by decide) (by decide)

deriving instance DecidableEq for Except

/-- Claim C2 (code bug): `makeAuthenticatedRequest` rebuilds the headers from
`options.data`, which holds the unserialized body object; `Buffer.byteLength`
throws `ERR_INVALID_ARG_TYPE` on it, so no headers are built and no POST is
ever sent — although the nonce-freshness check did run first, and although
`createHeader` applied to the serialized body (as at the call site one line
earlier) would have produced the intended headers with the body's byte
length and the current session secret. -/
theorem claim_C2_header_rebuild_throws :
    ((makeAuthenticatedRequest env0 trFresh { now := 1000, response := none }
        ("http://" ++ cfg0.fireplaceAddress ++ "/status.cgi")
        (JVal.obj [("prg", JVal.num 1)]) (some (200, JVal.obj []))).2
      = Except.error "ERR_INVALID_ARG_TYPE") ∧
    countPosts (makeAuthenticatedRequest env0 trFresh { now := 1000, response := none }
        ("http://" ++ cfg0.fireplaceAddress ++ "/status.cgi")
        (JVal.obj [("prg", JVal.num 1)]) (some (200, JVal.obj []))).1.events = 0 ∧
    countGets (makeAuthenticatedRequest env0 trFresh { now := 1000, response := none }
        ("http://" ++ cfg0.fireplaceAddress ++ "/status.cgi")
        (JVal.obj [("prg", JVal.num 1)]) (some (200, JVal.obj []))).1.events = 0 ∧
    createHeader env0.cfg trFresh.st.hspin
        (JVal.str (jsonStringify (JVal.obj [("prg", JVal.num 1)])))
      = Except.ok
        { hostH := "192.168.0.10"
          accept := "*/*"
          proxyConnection := "keep-alive"
          xBackendIp := "https://app.haassohn.com"
          acceptLanguage := "de-DE;q=1.0, en-DE;q=0.9"
          acceptEncoding := "gzip, deflate"
          token := "32bytes"
          contentType := "application/json"
          contentLength := 9
          userAgent := "ios"
          connection := "keep-alive"
          xHsPin := some "sec" } := by
  refine ⟨by decide, by decide, by decide, by decide⟩
